import Mathlib

/-!
Verification of the feature-discovery backend core
(`app/main.py`, `app/services/scraper.py`, `app/services/llm.py`).

Numbers that the Python code manipulates as floats are modelled as
rationals (`ℚ`); every decimal literal of the source appears here as the
corresponding exact rational.
-/

namespace FeatureDiscovery

/-! ## Interaction scorer (`app/main.py`)

`get_tutorial` and `automate_feature` update the feature's popularity and
the interaction's `discovery_status`; `provide_feedback` updates the
user's `feature_discovery_score`.
-/

/-- Events that update a feature's popularity. -/
inductive PopEvent where
  | tutorial
  | automation
deriving DecidableEq, Repr

/-- One popularity update, from `app/main.py` lines 380 and 455:
tutorial view does `popularity = popularity * 0.9 + 0.1`, automation use
does `popularity = popularity * 0.8 + 0.2`. -/
def stepPopularity (p : ℚ) : PopEvent → ℚ
  | .tutorial => p * (9/10) + 1/10
  | .automation => p * (8/10) + 2/10

/-- Popularity after a sequence of events, starting from the initial
value `0.0` set by `create_feature` (`app/main.py` line 154). -/
def runPopularity (events : List PopEvent) : ℚ :=
  events.foldl stepPopularity 0

/-- One `discovery_status` transition for a (user, feature) interaction.
`none` means no interaction record exists yet.  From `app/main.py`:
tutorial path (lines 359-377) creates with `0.3` or does
`min(discovery_status + 0.2, 1.0)`; automation path (lines 434-452)
creates with `0.5` or does `min(discovery_status + 0.3, 1.0)`. -/
def stepDiscovery : Option ℚ → PopEvent → Option ℚ
  | none, .tutorial => some (3/10)
  | none, .automation => some (1/2)
  | some d, .tutorial => some (min (d + 2/10) 1)
  | some d, .automation => some (min (d + 3/10) 1)

/-- The interaction's `discovery_status` after a sequence of tutorial and
automation events, starting with no interaction record. -/
def runDiscovery (events : List PopEvent) : Option ℚ :=
  events.foldl stepDiscovery none

/-! ### Popularity invariant (C2) -/

theorem stepPopularity_mem (p : ℚ) (e : PopEvent)
    (h0 : 0 ≤ p) (h1 : p ≤ 1) :
    0 ≤ stepPopularity p e ∧ stepPopularity p e ≤ 1 := by
  cases e <;> simp only [stepPopularity] <;> constructor <;> nlinarith

theorem runPopularity_aux (events : List PopEvent) (p : ℚ)
    (h0 : 0 ≤ p) (h1 : p ≤ 1) :
    0 ≤ events.foldl stepPopularity p ∧ events.foldl stepPopularity p ≤ 1 := by
  induction events generalizing p with
  | nil => exact ⟨h0, h1⟩
  | cons e es ih =>
      have h := stepPopularity_mem p e h0 h1
      exact ih (stepPopularity p e) h.1 h.2

/-- C2: for every finite sequence of tutorial-view and automation-use
events, a feature's popularity, starting from `0.0`, stays in `[0, 1]`. -/
theorem popularity_in_unit_interval (events : List PopEvent) :
    0 ≤ runPopularity events ∧ runPopularity events ≤ 1 :=
  runPopularity_aux events 0 le_rfl (by norm_num)

/-! ### Discovery-status invariant and monotonicity (C3) -/

theorem stepDiscovery_le_one (s : Option ℚ) (e : PopEvent)
    (h : ∀ d ∈ s, d ≤ 1) : ∀ d ∈ stepDiscovery s e, d ≤ 1 := by
  intro d hd
  cases s with
  | none =>
      cases e <;> simp only [stepDiscovery, Option.mem_def,
        Option.some.injEq] at hd <;> subst hd <;> norm_num
  | some x =>
      have hx : x ≤ 1 := h x rfl
      cases e <;> simp only [stepDiscovery, Option.mem_def,
        Option.some.injEq] at hd <;> subst hd <;> exact min_le_right _ _

theorem stepDiscovery_mono (d : ℚ) (e : PopEvent) (h1 : d ≤ 1) :
    ∀ d' ∈ stepDiscovery (some d) e, d ≤ d' := by
  intro d' hd'
  cases e <;> simp only [stepDiscovery, Option.mem_def,
    Option.some.injEq] at hd' <;> subst hd' <;> exact le_min (by linarith) h1

theorem stepDiscovery_isSome (d : ℚ) (e : PopEvent) :
    ∃ d', stepDiscovery (some d) e = some d' := by
  cases e <;> exact ⟨_, rfl⟩

theorem foldl_stepDiscovery_le_one (events : List PopEvent) (s : Option ℚ)
    (h : ∀ d ∈ s, d ≤ 1) : ∀ d ∈ events.foldl stepDiscovery s, d ≤ 1 := by
  induction events generalizing s with
  | nil => exact h
  | cons e es ih => exact ih _ (stepDiscovery_le_one s e h)

theorem foldl_stepDiscovery_mono (more : List PopEvent) (d : ℚ)
    (h1 : d ≤ 1) :
    ∀ d' ∈ more.foldl stepDiscovery (some d), d ≤ d' := by
  induction more generalizing d with
  | nil => intro d' hd'; cases hd'; exact le_rfl
  | cons e es ih =>
      intro d' hd'
      obtain ⟨d₁, he⟩ := stepDiscovery_isSome d e
      have hd₁ : d ≤ d₁ := stepDiscovery_mono d e h1 d₁ he
      have h₁le : d₁ ≤ 1 :=
        stepDiscovery_le_one (some d) e (fun x hx => by cases hx; exact h1) d₁ he
      rw [List.foldl_cons, he] at hd'
      exact le_trans hd₁ (ih d₁ h₁le d' hd')

/-- C3: along every event sequence, an interaction's `discovery_status`
never exceeds `1.0`, and extending the sequence never decreases it. -/
theorem discovery_status_mono_le_one (events more : List PopEvent) (d : ℚ)
    (h : runDiscovery events = some d) :
    d ≤ 1 ∧ ∀ d', runDiscovery (events ++ more) = some d' → d ≤ d' := by
  have hle : d ≤ 1 :=
    foldl_stepDiscovery_le_one events none (fun x hx => by cases hx) d h
  refine ⟨hle, ?_⟩
  intro d' hd'
  have heq : runDiscovery (events ++ more)
      = more.foldl stepDiscovery (some d) := by
    show (events ++ more).foldl stepDiscovery none = _
    rw [List.foldl_append, show events.foldl stepDiscovery none = some d from h]
  rw [heq] at hd'
  exact foldl_stepDiscovery_mono more d hle d' hd'

/-- Witness for C3: after one tutorial view the status is `0.3`; it does
not decrease when an automation event follows. -/
theorem discovery_status_mono_le_one_witness :
    (3/10 : ℚ) ≤ 1 ∧ ∀ d',
      runDiscovery ([PopEvent.tutorial] ++ [PopEvent.automation]) = some d' →
      (3/10 : ℚ) ≤ d' :=
  discovery_status_mono_le_one [PopEvent.tutorial] [PopEvent.automation]
    (3/10) rfl

/-! ## Recommendation assembler (`app/services/llm.py`)

`FeatureDiscoveryLLM.recommend_features` invokes the LangChain
recommendation chain up to three times, falling back to a direct API
call.  The external model is a black box; here each chain invocation is
an oracle answer (`Except.error` for a transport or parse failure), and
the fallback path's result is an opaque parameter.  The second component
of the result counts how many model invocations were made.
-/

structure RecommendedItem where
  id : ℤ
  name : String
  reason : String
  nudge : String
deriving DecidableEq, Repr

/-- A parsed model response before validation: any of the three
top-level keys may be missing (`app/services/llm.py` lines 329-340). -/
structure RawRecommendation where
  recommended_features : Option (List RecommendedItem)
  explanation : Option String
  automation_possible : Option Bool
deriving DecidableEq, Repr

structure RecommendationResult where
  recommended_features : List RecommendedItem
  explanation : String
  automation_possible : Bool
deriving DecidableEq, Repr

/-- A feature summary passed to the assembler (`app/main.py`
lines 255-263). -/
structure FeatureInfo where
  id : ℕ
  name : String
  description : String
  category : String
  complexity : ℤ
deriving DecidableEq, Repr

/-- Missing-key defaulting of the chain response
(`app/services/llm.py` lines 329-340). -/
def validateRecommendation (raw : RawRecommendation) : RecommendationResult :=
  { recommended_features := raw.recommended_features.getD [],
    explanation :=
      raw.explanation.getD "Features recommended based on your context.",
    automation_possible := raw.automation_possible.getD false }

/-- The `while retry_count < max_retries` loop
(`app/services/llm.py` lines 314-355).  `oracle k` is the outcome of the
`k`-th chain invocation; when the fuel runs out, the
`_fallback_recommendation` path issues one further direct model call and
yields `fallback`.  The second component counts model invocations. -/
def recommendLoop (oracle : ℕ → Except String RawRecommendation)
    (fallback : RecommendationResult) :
    ℕ → ℕ → RecommendationResult × ℕ
  | calls, 0 => (fallback, calls + 1)
  | calls, fuel + 1 =>
      match oracle calls with
      | Except.ok raw => (validateRecommendation raw, calls + 1)
      | Except.error _ => recommendLoop oracle fallback (calls + 1) fuel

/-- `FeatureDiscoveryLLM.recommend_features`
(`app/services/llm.py` lines 287-355): empty `available_features`
short-circuits before any model call; otherwise the chain is tried up to
`max_retries = 3` times and then the fallback path runs. -/
def recommend_features (oracle : ℕ → Except String RawRecommendation)
    (fallback : RecommendationResult)
    (user_role experience_level context : String)
    (user_query : Option String)
    (discovered_features available_features : List FeatureInfo) :
    RecommendationResult × ℕ :=
  if available_features.isEmpty then
    ({ recommended_features := [],
       explanation := "No available features to recommend at this time.",
       automation_possible := false }, 0)
  else
    recommendLoop oracle fallback 0 3

/-- C4: with an empty available-feature list, `recommend_features`
returns the empty recommendation list, the fixed explanation and
`automation_possible = false`, making zero model invocations — for every
possible oracle and fallback. -/
theorem recommend_features_empty_available
    (oracle : ℕ → Except String RawRecommendation)
    (fallback : RecommendationResult)
    (user_role experience_level context : String)
    (user_query : Option String)
    (discovered_features : List FeatureInfo) :
    recommend_features oracle fallback user_role experience_level context
      user_query discovered_features []
    = ({ recommended_features := [],
         explanation := "No available features to recommend at this time.",
         automation_possible := false }, 0) := rfl

/-! ## Persistent state model (`app/database.py` rows, `app/main.py` endpoints)

Rows are modelled with the fields the endpoint logic reads or writes.
Free-text columns that no modelled computation touches (`username`,
`email`, `description`, `keywords`) and timestamp columns (`created_at`,
`last_interaction`) are omitted.  Floats are `ℚ`.
-/

/-- A `users` row.  `create_user` initializes `feature_discovery_score`
to `0.0` (`app/main.py` line 99). -/
structure User where
  id : ℕ
  product_role : String
  experience_level : String
  feature_discovery_score : ℚ
deriving DecidableEq, Repr

/-- A `features` row.  `complexity` is an integer 1-5 per the schema. -/
structure Feature where
  id : ℕ
  name : String
  category : String
  complexity : ℤ
  popularity : ℚ
deriving DecidableEq, Repr

/-- A `user_feature_interactions` row. -/
structure UserFeatureInteraction where
  id : ℕ
  user_id : ℕ
  feature_id : ℕ
  discovery_status : ℚ
  tutorial_views : ℕ
  automation_uses : ℕ
  rating : Option ℚ
  feedback : Option String
deriving DecidableEq, Repr

/-- The store the endpoints query and mutate. -/
structure Db where
  users : List User
  features : List Feature
  interactions : List UserFeatureInteraction
deriving DecidableEq, Repr

/-- Body of a `POST /feedback` request; the schema validates
`rating` to the range 1-5 (`app/schemas.py` lines 142-151). -/
structure FeedbackRequest where
  interaction_id : ℕ
  rating : ℚ
  feedback_text : Option String
deriving DecidableEq, Repr

/-- Response body of `POST /feedback`. -/
structure FeedbackResponse where
  status : String
  message : String
deriving DecidableEq, Repr

/-- SQLAlchemy's `query(...).filter(cond).first()` pattern. -/
def findUser (db : Db) (uid : ℕ) : Option User :=
  db.users.find? (fun u => u.id == uid)

def findFeature (db : Db) (fid : ℕ) : Option Feature :=
  db.features.find? (fun f => f.id == fid)

def findInteractionById (db : Db) (iid : ℕ) : Option UserFeatureInteraction :=
  db.interactions.find? (fun i => i.id == iid)

def findInteractionByPair (db : Db) (uid fid : ℕ) :
    Option UserFeatureInteraction :=
  db.interactions.find? (fun i => i.user_id == uid && i.feature_id == fid)

/-- Mutating the single ORM object returned by `.first()`: the first
list element satisfying `p` is replaced by its image under `f`. -/
def updateFirstWhere {α : Type} (p : α → Bool) (f : α → α) : List α → List α
  | [] => []
  | x :: xs => if p x then f x :: xs else x :: updateFirstWhere p f xs

/-- Fresh autoincrement id for an inserted interaction row. -/
def freshInteractionId (db : Db) : ℕ :=
  (db.interactions.map (fun i => i.id)).foldl max 0 + 1

/-- `interaction.rating = request.rating; interaction.feedback =
request.feedback_text` (`app/main.py` lines 487-488). -/
def setRatingFields (req : FeedbackRequest) (i : UserFeatureInteraction) :
    UserFeatureInteraction :=
  { i with rating := some req.rating, feedback := req.feedback_text }

/-- `sum(i.rating for i in rated_interactions) / len(rated_interactions)`
(`app/main.py` line 501). -/
def avgRating (rated : List UserFeatureInteraction) : ℚ :=
  (rated.map (fun i => i.rating.getD 0)).sum / (rated.length : ℚ)

/-- `user.feature_discovery_score = (score * 0.7) + (avg_rating * 0.3)`
(`app/main.py` line 503). -/
def blendScore (avg : ℚ) (u : User) : User :=
  { u with feature_discovery_score :=
      u.feature_discovery_score * (7/10) + avg * (3/10) }

/-- The result of the `rating.isnot(None)` query of `app/main.py`
lines 494-497 under `autoflush=False` (`app/database.py` line 74): the
pending rating assignment is not flushed, so the SQL filter sees only
*stored* (pre-update) ratings, but matching rows resolve through the
identity map to the in-session objects, which carry the pending value.
Membership is decided on the pre-update list, values are read from the
post-update list, aligned positionally by `zip`. -/
def pendingRated (db : Db) (req : FeedbackRequest) (uid : ℕ) :
    List UserFeatureInteraction :=
  ((db.interactions.zip (updateFirstWhere
      (fun i => i.id == req.interaction_id) (setRatingFields req)
      db.interactions)).filter
    (fun p => p.1.user_id == uid && p.1.rating.isSome)).map Prod.snd

/-- `POST /feedback` (`app/main.py` lines 474-516): looks up the
interaction (404 when absent), records rating and feedback text on it,
then reblends the owning user's `feature_discovery_score` as
`score * 0.7 + avg_rating * 0.3` where `avg_rating` averages the
`pendingRated` rows — under `autoflush=False` a first-time rating is
invisible to that query, so in its absence the score is untouched.
Returns the new store plus the outcome. -/
def provide_feedback (db : Db) (req : FeedbackRequest) :
    Db × Except String FeedbackResponse :=
  match findInteractionById db req.interaction_id with
  | none => (db, Except.error "Interaction not found")
  | some interaction =>
      let ints1 := updateFirstWhere (fun i => i.id == req.interaction_id)
        (setRatingFields req) db.interactions
      let db1 : Db := { db with interactions := ints1 }
      let db2 : Db :=
        match findUser db1 interaction.user_id with
        | none => db1
        | some user =>
            let rated := pendingRated db req user.id
            if rated.isEmpty then db1
            else
              let users1 := updateFirstWhere (fun u => u.id == user.id)
                (blendScore (avgRating rated)) db1.users
              { db1 with users := users1 }
      (db2, Except.ok { status := "success",
                        message := "Feedback recorded successfully" })

/-- The interaction-recording part of `POST /features/{id}/tutorial`
(`app/main.py` lines 354-382): after validating user and feature, bump
`tutorial_views` and `discovery_status` (or insert a fresh interaction
at `0.3`), then nudge the feature's popularity.  The LLM-generated
tutorial body does not touch the store and is not modelled. -/
def get_tutorial_db (db : Db) (uid fid : ℕ) : Db :=
  match findUser db uid, findFeature db fid with
  | some user, some feature =>
      let db1 : Db :=
        match findInteractionByPair db user.id feature.id with
        | some _ =>
            let ints := updateFirstWhere
              (fun i => i.user_id == user.id && i.feature_id == feature.id)
              (fun i => { i with
                tutorial_views := i.tutorial_views + 1,
                discovery_status := min (i.discovery_status + 2/10) 1 })
              db.interactions
            { db with interactions := ints }
        | none =>
            let ints := db.interactions ++
              [{ id := freshInteractionId db, user_id := user.id,
                 feature_id := feature.id, discovery_status := 3/10,
                 tutorial_views := 1, automation_uses := 0,
                 rating := none, feedback := none }]
            { db with interactions := ints }
      let feats := updateFirstWhere (fun f => f.id == feature.id)
        (fun f => { f with popularity := f.popularity * (9/10) + 1/10 })
        db1.features
      { db1 with features := feats }
  | _, _ => db

/-- The interaction-recording part of `POST /features/{id}/automate`
(`app/main.py` lines 429-457): bump `automation_uses` and
`discovery_status` (or insert a fresh interaction at `0.5`), then nudge
the feature's popularity with the heavier automation weight. -/
def automate_feature_db (db : Db) (uid fid : ℕ) : Db :=
  match findUser db uid, findFeature db fid with
  | some user, some feature =>
      let db1 : Db :=
        match findInteractionByPair db user.id feature.id with
        | some _ =>
            let ints := updateFirstWhere
              (fun i => i.user_id == user.id && i.feature_id == feature.id)
              (fun i => { i with
                automation_uses := i.automation_uses + 1,
                discovery_status := min (i.discovery_status + 3/10) 1 })
              db.interactions
            { db with interactions := ints }
        | none =>
            let ints := db.interactions ++
              [{ id := freshInteractionId db, user_id := user.id,
                 feature_id := feature.id, discovery_status := 1/2,
                 tutorial_views := 0, automation_uses := 1,
                 rating := none, feedback := none }]
            { db with interactions := ints }
      let feats := updateFirstWhere (fun f => f.id == feature.id)
        (fun f => { f with popularity := f.popularity * (8/10) + 2/10 })
        db1.features
      { db1 with features := feats }
  | _, _ => db

/-- `POST /users/` (`app/main.py` lines 94-104): the stored
`feature_discovery_score` starts at `0.0`.  The email/username
uniqueness checks concern columns not modelled here. -/
def create_user_db (db : Db) (uid : ℕ) (role level : String) : Db :=
  { db with users := db.users ++
    [{ id := uid, product_role := role, experience_level := level,
       feature_discovery_score := 0 }] }

/-- `GET /users/{id}/discovered_features` (`app/main.py` lines 191-211):
features joined through interactions with `discovery_status >= 0.5`. -/
def get_discovered_features (db : Db) (uid : ℕ) :
    Except String (List Feature) :=
  match findUser db uid with
  | none => Except.error "User not found"
  | some _ =>
      let interactions := db.interactions.filter
        (fun i => i.user_id == uid && decide ((1:ℚ)/2 ≤ i.discovery_status))
      let feature_ids := interactions.map (fun i => i.feature_id)
      if feature_ids.isEmpty then Except.ok []
      else Except.ok (db.features.filter (fun f => feature_ids.contains f.id))

/-- The `discovered_features` metric of `GET /insights/user/{id}`
(`app/main.py` lines 529-538): interactions of the user with
`discovery_status > 0`. -/
def userInsightsDiscoveredCount (db : Db) (uid : ℕ) : ℕ :=
  ((db.interactions.filter (fun i => i.user_id == uid)).filter
    (fun i => decide ((0:ℚ) < i.discovery_status))).length

/-! ### Helper lemmas about `updateFirstWhere` -/

theorem mem_updateFirstWhere {α : Type} (p : α → Bool) (f : α → α)
    (l : List α) (y : α) (hy : y ∈ updateFirstWhere p f l) :
    y ∈ l ∨ ∃ x, x ∈ l ∧ y = f x := by
  induction l with
  | nil => simp [updateFirstWhere] at hy
  | cons x xs ih =>
      by_cases hx : p x
      · simp only [updateFirstWhere, if_pos hx, List.mem_cons] at hy
        rcases hy with hy | hy
        · exact Or.inr ⟨x, List.mem_cons_self x xs, hy⟩
        · exact Or.inl (List.mem_cons_of_mem x hy)
      · simp only [updateFirstWhere, if_neg hx, List.mem_cons] at hy
        rcases hy with hy | hy
        · exact Or.inl (hy ▸ List.mem_cons_self x xs)
        · rcases ih hy with h | ⟨z, hz, hyz⟩
          · exact Or.inl (List.mem_cons_of_mem x h)
          · exact Or.inr ⟨z, List.mem_cons_of_mem x hz, hyz⟩

theorem updated_mem_updateFirstWhere {α : Type} (p : α → Bool) (f : α → α)
    (l : List α) (a : α) (h : l.find? p = some a) :
    f a ∈ updateFirstWhere p f l := by
  induction l with
  | nil => simp at h
  | cons x xs ih =>
      by_cases hx : p x
      · have hax : x = a := by
          have := h
          simp only [List.find?, hx, Option.some.injEq] at this
          exact this
        subst hax
        simp [updateFirstWhere, hx]
      · have h' : xs.find? p = some a := by
          simpa only [List.find?, hx] using h
        simp only [updateFirstWhere, if_neg hx, List.mem_cons]
        exact Or.inr (ih h')

theorem find?_updateFirstWhere_same {α : Type} (p : α → Bool) (f : α → α)
    (l : List α) (a : α) (h : l.find? p = some a) (hf : p (f a) = true) :
    (updateFirstWhere p f l).find? p = some (f a) := by
  induction l with
  | nil => simp at h
  | cons x xs ih =>
      by_cases hx : p x
      · have hax : x = a := by
          have := h
          simp only [List.find?, hx, Option.some.injEq] at this
          exact this
        subst hax
        simp [updateFirstWhere, hx, List.find?, hf]
      · have h' : xs.find? p = some a := by
          simpa only [List.find?, hx] using h
        simp only [updateFirstWhere, if_neg hx, List.find?, hx]
        exact ih h'

/-- Updating a field other than `users` does not change user lookups. -/
theorem findUser_set_interactions (db : Db)
    (l : List UserFeatureInteraction) (uid : ℕ) :
    findUser { db with interactions := l } uid = findUser db uid := rfl

/-! ### Feedback and the rated-interactions query (C5)

With `autoflush=False`, the `rating.isnot(None)` SELECT of
`provide_feedback` sees only ratings stored before the request, while
matching rows resolve through the identity map to in-session objects
carrying the pending update.  The claimed scenario — a first-time
rating entering the average — is therefore false of the program: the
0.7/0.3 blend only happens when the user already has a stored rating.
-/

theorem mem_zip_self {α : Type} (l : List α) (p : α × α)
    (h : p ∈ l.zip l) : p.2 = p.1 := by
  induction l with
  | nil => cases h
  | cons x xs ih =>
      rcases List.mem_cons.1 h with rfl | h
      · rfl
      · exact ih h

theorem mem_zip_updateFirstWhere {α : Type} (q : α → Bool) (f : α → α)
    (l : List α) (p : α × α)
    (h : p ∈ l.zip (updateFirstWhere q f l)) :
    p.2 = p.1 ∨ p.2 = f p.1 := by
  induction l with
  | nil => cases h
  | cons x xs ih =>
      by_cases hx : q x
      · rw [show updateFirstWhere q f (x :: xs) = f x :: xs from by
          simp [updateFirstWhere, hx]] at h
        rcases List.mem_cons.1 h with rfl | h
        · exact Or.inr rfl
        · exact Or.inl (mem_zip_self xs p h)
      · rw [show updateFirstWhere q f (x :: xs)
            = x :: updateFirstWhere q f xs from by
          simp [updateFirstWhere, hx]] at h
        rcases List.mem_cons.1 h with rfl | h
        · exact Or.inl rfl
        · exact ih h

/-- Under a duplicate-free key column, updating the first key match is
updating the unique key match, pointwise over the list. -/
theorem updateFirstWhere_eq_map_unique {α : Type} (key : α → ℕ) (k : ℕ)
    (f : α → α) (l : List α)
    (hpw : l.Pairwise (fun a b => key a ≠ key b)) :
    updateFirstWhere (fun x => key x == k) f l
      = l.map (fun x => if key x == k then f x else x) := by
  induction l with
  | nil => rfl
  | cons x xs ih =>
      have hhead := (List.pairwise_cons.1 hpw).1
      have htail := (List.pairwise_cons.1 hpw).2
      by_cases hx : (key x == k) = true
      · rw [show updateFirstWhere (fun x => key x == k) f (x :: xs)
            = f x :: xs from by simp [updateFirstWhere, hx]]
        rw [List.map_cons, if_pos hx]
        have hrest : ∀ y ∈ xs, (if key y == k then f y else y) = id y := by
          intro y hy
          have hxk : key x = k := by simpa using hx
          have hky : ¬ (key y == k) = true := by
            simp only [beq_iff_eq]
            intro hyk
            exact hhead y hy (by rw [hxk, hyk])
          rw [if_neg hky]
          rfl
        rw [List.map_congr_left hrest, List.map_id]
      · rw [show updateFirstWhere (fun x => key x == k) f (x :: xs)
            = x :: updateFirstWhere (fun x => key x == k) f xs from by
          simp [updateFirstWhere, hx]]
        rw [List.map_cons, if_neg hx, ih htail]

theorem zip_self_map {α β : Type} (l : List α) (g : α → β) :
    l.zip (l.map g) = l.map (fun x => (x, g x)) := by
  induction l with
  | nil => rfl
  | cons x xs ih => simp [ih]

theorem rated_zip_eq (uid : ℕ)
    (g : UserFeatureInteraction → UserFeatureInteraction)
    (l : List UserFeatureInteraction) :
    ((l.map (fun i => (i, g i))).filter
      (fun p => p.1.user_id == uid && p.1.rating.isSome)).map Prod.snd
    = (l.filter (fun i => i.user_id == uid && i.rating.isSome)).map g := by
  induction l with
  | nil => rfl
  | cons x xs ih =>
      by_cases hx : (x.user_id == uid && x.rating.isSome) = true
      · simp only [List.map_cons, List.filter_cons, hx, if_true, ih]
      · simp only [List.map_cons, List.filter_cons, hx, Bool.false_eq_true,
          if_false, ih]

/-- The rating values the program actually averages: the user's
interactions whose rating was stored *before* this request; the one
being re-rated contributes its new pending value, the others their
stored values.  A first-time rating contributes nothing. -/
def storedRatedValues (db : Db) (req : FeedbackRequest) (uid : ℕ) :
    List ℚ :=
  (db.interactions.filter
    (fun i => i.user_id == uid && i.rating.isSome)).map
    (fun i => if i.id == req.interaction_id then req.rating
      else i.rating.getD 0)

/-- C5 counterexample: a user with score `0.4` submits rating `5` on a
never-rated interaction.  The claim says the score becomes
`0.4 * 0.7 + 5 * 0.3 = 1.78`; with `autoflush=False` the rated query
returns no rows and the score stays `0.4`. -/
theorem feedback_first_rating_leaves_score_unchanged :
    findUser (provide_feedback
      { users := [{ id := 2, product_role := "manager",
                    experience_level := "novice",
                    feature_discovery_score := 2/5 }],
        features := [],
        interactions := [{ id := 1, user_id := 2, feature_id := 3,
                           discovery_status := 1/2, tutorial_views := 1,
                           automation_uses := 0, rating := none,
                           feedback := none }] }
      { interaction_id := 1, rating := 5,
        feedback_text := some "great" }).1 2
      = some { id := 2, product_role := "manager",
               experience_level := "novice",
               feature_discovery_score := 2/5 } ∧
    ¬ ((2:ℚ)/5 = (2/5) * (7/10) + 5 * (3/10)) := by
  constructor
  · norm_num [provide_feedback, findInteractionById, findUser,
      updateFirstWhere, setRatingFields, pendingRated, avgRating,
      blendScore, List.find?, List.filter, List.zip, List.zipWith]
  · norm_num

/-- C5 (amended): feedback on an existing interaction of an existing
user leaves the score untouched when the user has no previously stored
rating; otherwise the score becomes `0.7` of the old score plus `0.3`
of the mean over `storedRatedValues` (stored-rated interactions, with
the re-rated one contributing its new value).  Interaction ids are
assumed duplicate-free, as the primary key guarantees. -/
theorem feedback_reblends_stored_ratings (db : Db) (req : FeedbackRequest)
    (it : UserFeatureInteraction) (user : User)
    (hI : findInteractionById db req.interaction_id = some it)
    (hU : findUser db it.user_id = some user)
    (hids : (db.interactions.map (fun i => i.id)).Nodup) :
    (storedRatedValues db req it.user_id = [] →
      findUser (provide_feedback db req).1 it.user_id = some user) ∧
    (storedRatedValues db req it.user_id ≠ [] →
      findUser (provide_feedback db req).1 it.user_id
        = some { user with feature_discovery_score :=
            user.feature_discovery_score * (7/10)
              + ((storedRatedValues db req it.user_id).sum
                  / ((storedRatedValues db req it.user_id).length : ℚ))
                * (3/10) }) := by
  have hid : user.id = it.user_id := by
    have hb := List.find?_some hU
    simpa using hb
  have hpw : db.interactions.Pairwise (fun a b => a.id ≠ b.id) :=
    List.pairwise_map.1 hids
  have hupd : updateFirstWhere (fun i => i.id == req.interaction_id)
      (setRatingFields req) db.interactions
      = db.interactions.map (fun i =>
          if i.id == req.interaction_id then setRatingFields req i
          else i) :=
    updateFirstWhere_eq_map_unique (fun i => i.id) req.interaction_id
      (setRatingFields req) db.interactions hpw
  have hrated : pendingRated db req user.id
      = (db.interactions.filter
          (fun i => i.user_id == user.id && i.rating.isSome)).map
        (fun i => if i.id == req.interaction_id then setRatingFields req i
          else i) := by
    rw [pendingRated, hupd, zip_self_map]
    exact rated_zip_eq user.id _ db.interactions
  have hvals : (pendingRated db req user.id).map
      (fun i => i.rating.getD 0) = storedRatedValues db req it.user_id := by
    rw [hrated, List.map_map, storedRatedValues, ← hid]
    apply List.map_congr_left
    intro i hi
    by_cases hiid : (i.id == req.interaction_id) = true
    · simp [Function.comp, hiid, setRatingFields]
    · simp [Function.comp, hiid]
  have hlen : (pendingRated db req user.id).length
      = (storedRatedValues db req it.user_id).length := by
    rw [← hvals, List.length_map]
  have hemp : pendingRated db req user.id = [] ↔
      storedRatedValues db req it.user_id = [] := by
    constructor
    · intro h
      rw [← hvals, h]
      rfl
    · intro h
      rw [← hvals] at h
      exact List.map_eq_nil_iff.1 h
  set u1 := updateFirstWhere (fun i => i.id == req.interaction_id)
    (setRatingFields req) db.interactions with hu1
  set u2 := updateFirstWhere (fun u => u.id == user.id)
    (blendScore (avgRating (pendingRated db req user.id))) db.users
    with hu2
  have hpf : provide_feedback db req
      = (if (pendingRated db req user.id).isEmpty
          then { db with interactions := u1 }
          else { users := u2, features := db.features,
                 interactions := u1 },
        Except.ok { status := "success",
                    message := "Feedback recorded successfully" }) := by
    simp only [provide_feedback, hI]
    rw [← hu1]
    rw [show findUser { db with interactions := u1 } it.user_id
        = some user from hU]
  refine ⟨?_, ?_⟩
  · intro h0
    have hE : (pendingRated db req user.id).isEmpty = true := by
      rw [hemp.2 h0]
      rfl
    rw [hpf]
    simp only [hE, if_true]
    exact hU
  · intro h0
    have hne : pendingRated db req user.id ≠ [] :=
      fun hc => h0 (hemp.1 hc)
    have hE : (pendingRated db req user.id).isEmpty = false := by
      cases hcase : pendingRated db req user.id with
      | nil => exact absurd hcase hne
      | cons a as => rfl
    rw [hpf]
    simp only [hE, Bool.false_eq_true, if_false]
    show List.find? _ _ = _
    rw [← hid, hu2]
    rw [find?_updateFirstWhere_same (fun u => u.id == user.id)
      (blendScore (avgRating (pendingRated db req user.id))) db.users user
      (by rw [← hid] at hU; exact hU) (by simp [blendScore])]
    congr 1
    rw [blendScore, avgRating, hvals, hlen, hid]

/-- Test fixture for the amended C5: the sole interaction already has a
stored rating `3`, and the request re-rates it with `5`. -/
def reratingDemoDb : Db :=
  { users := [{ id := 2, product_role := "manager",
                experience_level := "novice",
                feature_discovery_score := 2/5 }],
    features := [],
    interactions := [{ id := 1, user_id := 2, feature_id := 3,
                       discovery_status := 1/2, tutorial_views := 1,
                       automation_uses := 0, rating := some 3,
                       feedback := none }] }

def reratingDemoReq : FeedbackRequest :=
  { interaction_id := 1, rating := 5, feedback_text := some "better" }

/-- Witness for the amended C5: re-rating the stored-rated interaction
with `5` blends the pending value: `0.4 * 0.7 + 5 * 0.3 = 1.78`. -/
theorem feedback_reblends_stored_ratings_witness :
    ((storedRatedValues reratingDemoDb reratingDemoReq 2 = [] →
      findUser (provide_feedback reratingDemoDb reratingDemoReq).1 2
        = some { id := 2, product_role := "manager",
                 experience_level := "novice",
                 feature_discovery_score := 2/5 }) ∧
     (storedRatedValues reratingDemoDb reratingDemoReq 2 ≠ [] →
      findUser (provide_feedback reratingDemoDb reratingDemoReq).1 2
        = some { id := 2, product_role := "manager",
                 experience_level := "novice",
                 feature_discovery_score := (2:ℚ)/5 * (7/10)
                   + (((storedRatedValues reratingDemoDb
                        reratingDemoReq 2).sum
                      / ((storedRatedValues reratingDemoDb
                          reratingDemoReq 2).length : ℚ)) * (3/10)) })) ∧
    findUser (provide_feedback reratingDemoDb reratingDemoReq).1 2
      = some { id := 2, product_role := "manager",
               experience_level := "novice",
               feature_discovery_score := 89/50 } :=
  ⟨feedback_reblends_stored_ratings reratingDemoDb reratingDemoReq
    { id := 1, user_id := 2, feature_id := 3, discovery_status := 1/2,
      tutorial_views := 1, automation_uses := 0, rating := some 3,
      feedback := none }
    { id := 2, product_role := "manager", experience_level := "novice",
      feature_discovery_score := 2/5 }
    rfl rfl (by decide),
   by norm_num [provide_feedback, reratingDemoDb, reratingDemoReq,
     findInteractionById, findUser, updateFirstWhere, setRatingFields,
     pendingRated, avgRating, blendScore, List.find?, List.filter,
     List.zip, List.zipWith]⟩

/-! ### The discovery-score range (C6) -/

/-- All stored ratings lie in the schema-validated range 1-5. -/
def ValidRatings (db : Db) : Prop :=
  ∀ i ∈ db.interactions, ∀ r ∈ i.rating, 1 ≤ r ∧ r ≤ 5

/-- Every stored user's `feature_discovery_score` lies in `[0, 5]`. -/
def ScoresInRange (db : Db) : Prop :=
  ∀ u ∈ db.users, 0 ≤ u.feature_discovery_score ∧
    u.feature_discovery_score ≤ 5

instance (db : Db) : Decidable (ValidRatings db) := by
  unfold ValidRatings
  infer_instance

instance (db : Db) : Decidable (ScoresInRange db) := by
  unfold ScoresInRange
  infer_instance

/-- An API operation that can touch a user's `feature_discovery_score`
or the stored ratings it is computed from. -/
inductive ApiOp where
  | createUser (uid : ℕ) (role level : String)
  | tutorial (uid fid : ℕ)
  | automation (uid fid : ℕ)
  | feedback (req : FeedbackRequest)
deriving DecidableEq, Repr

def applyOp (db : Db) : ApiOp → Db
  | .createUser uid role level => create_user_db db uid role level
  | .tutorial uid fid => get_tutorial_db db uid fid
  | .automation uid fid => automate_feature_db db uid fid
  | .feedback req => (provide_feedback db req).1

def runOps (db : Db) (ops : List ApiOp) : Db :=
  ops.foldl applyOp db

/-- The schema constraint `1 <= rating <= 5` on feedback requests. -/
def opRatingValid : ApiOp → Prop
  | .feedback req => 1 ≤ req.rating ∧ req.rating ≤ 5
  | _ => True

instance : (op : ApiOp) → Decidable (opRatingValid op)
  | .createUser _ _ _ => isTrue trivial
  | .tutorial _ _ => isTrue trivial
  | .automation _ _ => isTrue trivial
  | .feedback req =>
      inferInstanceAs (Decidable (1 ≤ req.rating ∧ req.rating ≤ 5))

theorem list_sum_bounds (vals : List ℚ) (a b : ℚ)
    (h : ∀ v ∈ vals, a ≤ v ∧ v ≤ b) :
    (vals.length : ℚ) * a ≤ vals.sum ∧
    vals.sum ≤ (vals.length : ℚ) * b := by
  induction vals with
  | nil => simp
  | cons v vs ih =>
      have hv := h v (List.mem_cons_self v vs)
      have ihh := ih (fun w hw => h w (List.mem_cons_of_mem _ hw))
      simp only [List.sum_cons, List.length_cons, Nat.cast_succ]
      constructor <;> nlinarith [ihh.1, ihh.2, hv.1, hv.2]

theorem list_avg_bounds (vals : List ℚ) (a b : ℚ) (hne : vals ≠ [])
    (h : ∀ v ∈ vals, a ≤ v ∧ v ≤ b) :
    a ≤ vals.sum / (vals.length : ℚ) ∧
    vals.sum / (vals.length : ℚ) ≤ b := by
  have hlen : 0 < (vals.length : ℚ) := by
    have : 0 < vals.length := List.length_pos.2 hne
    exact_mod_cast this
  have hs := list_sum_bounds vals a b h
  constructor
  · rw [le_div_iff₀ hlen]
    nlinarith [hs.1]
  · rw [div_le_iff₀ hlen]
    nlinarith [hs.2]

theorem avgRating_pendingRated_bounds (db : Db) (req : FeedbackRequest)
    (uid : ℕ) (hv : ValidRatings db)
    (hr : 1 ≤ req.rating ∧ req.rating ≤ 5)
    (hne : pendingRated db req uid ≠ []) :
    1 ≤ avgRating (pendingRated db req uid) ∧
    avgRating (pendingRated db req uid) ≤ 5 := by
  have hvals : ∀ v ∈ (pendingRated db req uid).map
      (fun i => i.rating.getD 0), 1 ≤ v ∧ v ≤ 5 := by
    intro v hvmem
    rcases List.mem_map.1 hvmem with ⟨i, hi, hvi⟩
    rw [pendingRated] at hi
    rcases List.mem_map.1 hi with ⟨p, hp, hpi⟩
    have hpf := List.mem_filter.1 hp
    have hpp := hpf.2
    simp only [Bool.and_eq_true] at hpp
    have hsome : p.1.rating.isSome := hpp.2
    have hmem1 : p.1 ∈ db.interactions := (List.of_mem_zip hpf.1).1
    rcases mem_zip_updateFirstWhere _ _ _ _ hpf.1 with h21 | h2f
    · rcases Option.isSome_iff_exists.1 hsome with ⟨r, hrr⟩
      have hb := hv p.1 hmem1 r (by rw [hrr]; rfl)
      rw [← hvi, ← hpi, h21, hrr]
      exact hb
    · rw [← hvi, ← hpi, h2f]
      simpa [setRatingFields] using hr
  have hne' : (pendingRated db req uid).map
      (fun i => i.rating.getD 0) ≠ [] := by
    intro hc
    exact hne (List.map_eq_nil_iff.1 hc)
  have h := list_avg_bounds _ 1 5 hne' hvals
  rw [avgRating]
  simpa [List.length_map] using h

theorem validRatings_updateFeedback (db : Db) (req : FeedbackRequest)
    (hv : ValidRatings db) (hr : 1 ≤ req.rating ∧ req.rating ≤ 5) :
    ∀ i ∈ updateFirstWhere (fun i => i.id == req.interaction_id)
        (setRatingFields req) db.interactions,
      ∀ r ∈ i.rating, 1 ≤ r ∧ r ≤ 5 := by
  intro i hi r hrr
  rcases mem_updateFirstWhere _ _ _ _ hi with h | ⟨x, hx, hix⟩
  · exact hv i h r hrr
  · subst hix
    simp only [setRatingFields, Option.mem_def, Option.some.injEq] at hrr
    subst hrr
    exact hr

theorem isEmpty_false_ne_nil {α : Type} {l : List α}
    (h : ¬ l.isEmpty = true) : l ≠ [] := by
  cases l with
  | nil => exact absurd rfl h
  | cons a as => exact List.cons_ne_nil a as

theorem scoresInRange_provide_feedback (db : Db) (req : FeedbackRequest)
    (hdb : ScoresInRange db) (hv : ValidRatings db)
    (hr : 1 ≤ req.rating ∧ req.rating ≤ 5) :
    ScoresInRange (provide_feedback db req).1 := by
  intro u hu
  cases hfind : findInteractionById db req.interaction_id with
  | none =>
      simp only [provide_feedback, hfind] at hu
      exact hdb u hu
  | some it =>
      simp only [provide_feedback, hfind, findUser_set_interactions] at hu
      cases hfu : findUser db it.user_id with
      | none =>
          simp only [hfu] at hu
          exact hdb u hu
      | some user =>
          simp only [hfu] at hu
          by_cases hE : (pendingRated db req user.id).isEmpty = true
          · simp only [hE, if_true] at hu
            exact hdb u hu
          · simp only [hE, if_false, Bool.false_eq_true] at hu
            rcases mem_updateFirstWhere _ _ _ _ hu with h | ⟨x, hx, hux⟩
            · exact hdb u h
            · subst hux
              have hxs := hdb x hx
              have havg := avgRating_pendingRated_bounds db req user.id
                hv hr (isEmpty_false_ne_nil hE)
              simp only [blendScore]
              constructor <;> nlinarith [hxs.1, hxs.2, havg.1, havg.2]

theorem validRatings_provide_feedback (db : Db) (req : FeedbackRequest)
    (hv : ValidRatings db) (hr : 1 ≤ req.rating ∧ req.rating ≤ 5) :
    ValidRatings (provide_feedback db req).1 := by
  intro i hi
  cases hfind : findInteractionById db req.interaction_id with
  | none =>
      simp only [provide_feedback, hfind] at hi
      exact hv i hi
  | some it =>
      simp only [provide_feedback, hfind, findUser_set_interactions] at hi
      cases hfu : findUser db it.user_id with
      | none =>
          simp only [hfu] at hi
          exact validRatings_updateFeedback db req hv hr i hi
      | some user =>
          simp only [hfu] at hi
          by_cases hE : (pendingRated db req user.id).isEmpty = true
          · simp only [hE, if_true] at hi
            exact validRatings_updateFeedback db req hv hr i hi
          · simp only [hE, if_false, Bool.false_eq_true] at hi
            exact validRatings_updateFeedback db req hv hr i hi

theorem get_tutorial_db_users (db : Db) (uid fid : ℕ) :
    (get_tutorial_db db uid fid).users = db.users := by
  simp only [get_tutorial_db]
  split
  · split <;> rfl
  · rfl

theorem automate_feature_db_users (db : Db) (uid fid : ℕ) :
    (automate_feature_db db uid fid).users = db.users := by
  simp only [automate_feature_db]
  split
  · split <;> rfl
  · rfl

theorem validRatings_get_tutorial (db : Db) (uid fid : ℕ)
    (hv : ValidRatings db) : ValidRatings (get_tutorial_db db uid fid) := by
  intro i hi
  simp only [get_tutorial_db] at hi
  split at hi
  · split at hi
    · rcases mem_updateFirstWhere _ _ _ _ hi with h | ⟨x, hx, hix⟩
      · exact hv i h
      · subst hix
        exact hv x hx
    · rcases List.mem_append.1 hi with h | h
      · exact hv i h
      · intro r hr
        rcases List.mem_singleton.1 h with rfl
        cases hr
  · exact hv i hi

theorem validRatings_automate (db : Db) (uid fid : ℕ)
    (hv : ValidRatings db) : ValidRatings (automate_feature_db db uid fid) := by
  intro i hi
  simp only [automate_feature_db] at hi
  split at hi
  · split at hi
    · rcases mem_updateFirstWhere _ _ _ _ hi with h | ⟨x, hx, hix⟩
      · exact hv i h
      · subst hix
        exact hv x hx
    · rcases List.mem_append.1 hi with h | h
      · exact hv i h
      · intro r hr
        rcases List.mem_singleton.1 h with rfl
        cases hr
  · exact hv i hi

theorem scoresInRange_create_user (db : Db) (uid : ℕ) (role level : String)
    (hdb : ScoresInRange db) :
    ScoresInRange (create_user_db db uid role level) := by
  intro u hu
  simp only [create_user_db] at hu
  rcases List.mem_append.1 hu with h | h
  · exact hdb u h
  · rcases List.mem_singleton.1 h with rfl
    norm_num

theorem invariants_applyOp (db : Db) (op : ApiOp)
    (hdb : ScoresInRange db) (hv : ValidRatings db)
    (hop : opRatingValid op) :
    ScoresInRange (applyOp db op) ∧ ValidRatings (applyOp db op) := by
  cases op with
  | createUser uid role level =>
      exact ⟨scoresInRange_create_user db uid role level hdb,
             fun i hi => hv i hi⟩
  | tutorial uid fid =>
      refine ⟨?_, validRatings_get_tutorial db uid fid hv⟩
      intro u hu
      rw [show (applyOp db (ApiOp.tutorial uid fid)).users = db.users from
        get_tutorial_db_users db uid fid] at hu
      exact hdb u hu
  | automation uid fid =>
      refine ⟨?_, validRatings_automate db uid fid hv⟩
      intro u hu
      rw [show (applyOp db (ApiOp.automation uid fid)).users = db.users from
        automate_feature_db_users db uid fid] at hu
      exact hdb u hu
  | feedback req =>
      exact ⟨scoresInRange_provide_feedback db req hdb hv hop,
             validRatings_provide_feedback db req hv hop⟩

/-- C6 counterexample: a user whose score starts at the creation value
`0.0` submits rating `5` twice on the same interaction.  The first
submission stores the rating without touching the score (the pending
rating is invisible to the rated query); the second finds the stored
rating and blends its pending value: `0 * 0.7 + 5 * 0.3 = 1.5`, outside
`[0, 1]`. -/
theorem discovery_score_escapes_unit_interval :
    findUser (runOps
      { users := [{ id := 1, product_role := "user",
                    experience_level := "beginner",
                    feature_discovery_score := 0 }],
        features := [],
        interactions := [{ id := 1, user_id := 1, feature_id := 1,
                           discovery_status := 1/2, tutorial_views := 1,
                           automation_uses := 0, rating := none,
                           feedback := none }] }
      [ApiOp.feedback { interaction_id := 1, rating := 5,
                        feedback_text := none },
       ApiOp.feedback { interaction_id := 1, rating := 5,
                        feedback_text := none }]) 1
      = some { id := 1, product_role := "user",
               experience_level := "beginner",
               feature_discovery_score := 3/2 } ∧
    ¬ ((3/2 : ℚ) ≤ 1) := by
  constructor
  · norm_num [runOps, applyOp, provide_feedback, findInteractionById,
      findUser, updateFirstWhere, setRatingFields, pendingRated,
      avgRating, blendScore, List.find?, List.filter, List.zip,
      List.zipWith]
  · norm_num

/-- C6 (amended): under every sequence of in-scope operations with
schema-valid ratings, every user's `feature_discovery_score` stays in
`[0, 5]` — the blend `score * 0.7 + avg_rating * 0.3` is bounded by the
maximal rating, not by 1 (a second rating of 5 on the same interaction
already yields 1.5). -/
theorem discovery_score_stays_in_zero_five (db : Db) (ops : List ApiOp)
    (hdb : ScoresInRange db) (hv : ValidRatings db)
    (hops : ∀ op ∈ ops, opRatingValid op) :
    ScoresInRange (runOps db ops) := by
  induction ops generalizing db with
  | nil => exact hdb
  | cons op rest ih =>
      have h := invariants_applyOp db op hdb hv
        (hops op (List.mem_cons_self op rest))
      exact ih (applyOp db op) h.1 h.2
        (fun o ho => hops o (List.mem_cons_of_mem _ ho))

/-- Witness for the amended C6: a user is created (score `0.0`), views a
tutorial and submits rating `5`. -/
theorem discovery_score_stays_in_zero_five_witness :
    ScoresInRange (runOps
      { users := [],
        features := [{ id := 1, name := "export", category := "data",
                       complexity := 2, popularity := 0 }],
        interactions := [] }
      [ApiOp.createUser 1 "user" "beginner", ApiOp.tutorial 1 1,
       ApiOp.feedback { interaction_id := 1, rating := 5,
                        feedback_text := none }]) :=
  discovery_score_stays_in_zero_five _ _ (by decide) (by decide) (by decide)

/-! ### Unknown interaction id on feedback (C8) -/

/-- C8: a feedback submission whose interaction id matches no stored
interaction fails with the not-found error and leaves the store
untouched. -/
theorem feedback_unknown_interaction (db : Db) (req : FeedbackRequest)
    (h : findInteractionById db req.interaction_id = none) :
    provide_feedback db req = (db, Except.error "Interaction not found") := by
  unfold provide_feedback
  rw [h]

/-- Witness for C8 at a store holding one unrelated interaction. -/
theorem feedback_unknown_interaction_witness :
    provide_feedback
      { users := [{ id := 1, product_role := "admin",
                    experience_level := "expert",
                    feature_discovery_score := 0 }],
        features := [],
        interactions := [{ id := 7, user_id := 1, feature_id := 2,
                           discovery_status := 3/10, tutorial_views := 1,
                           automation_uses := 0, rating := none,
                           feedback := none }] }
      { interaction_id := 9, rating := 5, feedback_text := none }
    = ({ users := [{ id := 1, product_role := "admin",
                     experience_level := "expert",
                     feature_discovery_score := 0 }],
         features := [],
         interactions := [{ id := 7, user_id := 1, feature_id := 2,
                            discovery_status := 3/10, tutorial_views := 1,
                            automation_uses := 0, rating := none,
                            feedback := none }] },
       Except.error "Interaction not found") :=
  feedback_unknown_interaction _ _ (by decide)

/-! ## Insights aggregator: `GET /insights/features` (C9)

`get_feature_insights` (`app/main.py` lines 580-649) loops over all
features accumulating per-feature insight records, the running total
complexity and a category-count dictionary, then summarizes.
-/

/-- One record of the `feature_insights` list. -/
structure FeatureInsight where
  feature_id : ℕ
  name : String
  category : String
  complexity : ℤ
  popularity : ℚ
  discovery_rate : ℚ
  avg_rating : ℚ
  automation_rate : ℚ
deriving DecidableEq, Repr

/-- The per-feature metrics computed inside the loop
(`app/main.py` lines 595-630). -/
def featureInsight (db : Db) (f : Feature) : FeatureInsight :=
  let interactions := db.interactions.filter (fun i => i.feature_id == f.id)
  let total_users := db.users.length
  let rated := interactions.filter (fun i => i.rating.isSome)
  { feature_id := f.id, name := f.name, category := f.category,
    complexity := f.complexity, popularity := f.popularity,
    discovery_rate := if 0 < total_users then
      (interactions.length : ℚ) / (total_users : ℚ) else 0,
    avg_rating := if rated.isEmpty then 0 else
      (rated.map (fun i => i.rating.getD 0)).sum / (rated.length : ℚ),
    automation_rate := if interactions.isEmpty then 0 else
      ((interactions.filter (fun i => 0 < i.automation_uses)).length : ℚ)
        / (interactions.length : ℚ) }

/-- The Python dict update `category_counts[c] += 1` /
`category_counts[c] = 1` on an insertion-ordered association list
(`app/main.py` lines 612-615). -/
def categoryIncr : List (String × ℕ) → String → List (String × ℕ)
  | [], c => [(c, 1)]
  | (k, n) :: rest, c =>
      if k = c then (k, n + 1) :: rest else (k, n) :: categoryIncr rest c

/-- `max(category_counts.items(), key=lambda x: x[1])`: CPython `max`
keeps the current item on ties, so the first maximal item wins
(`app/main.py` line 635). -/
def pickMaxBySnd : List (String × ℕ) → Option (String × ℕ)
  | [] => none
  | x :: xs => some (xs.foldl (fun best y => if best.2 < y.2 then y else best) x)

/-- Summary part of the response of `GET /insights/features`. -/
structure FeatureInsightsResponse where
  feature_insights : List FeatureInsight
  total_features : ℕ
  avg_complexity : ℚ
  most_popular_category : Option String
deriving DecidableEq, Repr

/-- One iteration of the `for feature in features` loop, threading
(insights so far, total complexity, category counts). -/
def insightStep (db : Db)
    (st : List FeatureInsight × ℤ × List (String × ℕ)) (f : Feature) :
    List FeatureInsight × ℤ × List (String × ℕ) :=
  (st.1 ++ [featureInsight db f], st.2.1 + f.complexity,
    categoryIncr st.2.2 f.category)

/-- `GET /insights/features` (`app/main.py` lines 580-649). -/
def get_feature_insights (db : Db) : FeatureInsightsResponse :=
  let st := db.features.foldl (insightStep db) ([], 0, [])
  { feature_insights := st.1,
    total_features := db.features.length,
    avg_complexity := if db.features.isEmpty then 0 else
      (st.2.1 : ℚ) / (db.features.length : ℚ),
    most_popular_category := (pickMaxBySnd st.2.2).map Prod.fst }

/-- Insertion-ordered first occurrences of a list of category names:
the key order of the Python dict. -/
def firstSeen (l : List String) : List String :=
  l.foldl (fun acc c => if c ∈ acc then acc else acc ++ [c]) []

theorem firstSeen_append_singleton (l : List String) (a : String) :
    firstSeen (l ++ [a])
      = if a ∈ firstSeen l then firstSeen l else firstSeen l ++ [a] := by
  unfold firstSeen
  rw [List.foldl_append]
  rfl

theorem mem_firstSeen (l : List String) (b : String) :
    b ∈ firstSeen l ↔ b ∈ l := by
  induction l using List.reverseRecOn with
  | nil => simp [firstSeen]
  | append_singleton l a ih =>
      rw [firstSeen_append_singleton]
      by_cases ha : a ∈ firstSeen l
      · rw [if_pos ha]
        simp only [List.mem_append, List.mem_singleton]
        constructor
        · intro h
          exact Or.inl (ih.1 h)
        · rintro (h | rfl)
          · exact ih.2 h
          · exact ha
      · rw [if_neg ha]
        simp [List.mem_append, ih]

theorem nodup_firstSeen (l : List String) : (firstSeen l).Nodup := by
  induction l using List.reverseRecOn with
  | nil => simp [firstSeen]
  | append_singleton l a ih =>
      rw [firstSeen_append_singleton]
      by_cases ha : a ∈ firstSeen l
      · rw [if_pos ha]
        exact ih
      · rw [if_neg ha]
        simp only [List.nodup_append, List.nodup_cons, List.not_mem_nil,
          not_false_iff, List.nodup_nil, and_true, true_and]
        refine ⟨ih, ?_⟩
        intro x hx
        simp only [List.mem_singleton]
        intro hxa
        exact ha (hxa ▸ hx)

theorem firstSeen_eq_nil (l : List String) : firstSeen l = [] ↔ l = [] := by
  constructor
  · intro h
    cases hl : l with
    | nil => rfl
    | cons b bs =>
        have hb : b ∈ firstSeen l := (mem_firstSeen l b).2 (by
          rw [hl]; exact List.mem_cons_self b bs)
        rw [h] at hb
        exact absurd hb (List.not_mem_nil b)
  · intro h
    rw [h]
    rfl

theorem firstSeen_pairwise_indexOf (l : List String) :
    (firstSeen l).Pairwise (fun x y => l.indexOf x < l.indexOf y) := by
  induction l using List.reverseRecOn with
  | nil => simp [firstSeen]
  | append_singleton l a ih =>
      rw [firstSeen_append_singleton]
      by_cases ha : a ∈ firstSeen l
      · rw [if_pos ha]
        refine ih.imp_of_mem ?_
        intro x y hx hy hxy
        rw [List.indexOf_append_of_mem ((mem_firstSeen l x).1 hx),
          List.indexOf_append_of_mem ((mem_firstSeen l y).1 hy)]
        exact hxy
      · rw [if_neg ha]
        have hal : a ∉ l := fun h => ha ((mem_firstSeen l a).2 h)
        rw [List.pairwise_append]
        refine ⟨?_, by simp, ?_⟩
        · refine ih.imp_of_mem ?_
          intro x y hx hy hxy
          rw [List.indexOf_append_of_mem ((mem_firstSeen l x).1 hx),
            List.indexOf_append_of_mem ((mem_firstSeen l y).1 hy)]
          exact hxy
        · intro x hx y hy
          rcases List.mem_singleton.1 hy with rfl
          have hxl : x ∈ l := (mem_firstSeen l x).1 hx
          rw [List.indexOf_append_of_mem hxl,
            List.indexOf_append_of_not_mem hal]
          have h1 : l.indexOf x < l.length := List.indexOf_lt_length.2 hxl
          omega

theorem categoryIncr_map (ks : List String) (g : String → ℕ) (a : String)
    (hnd : ks.Nodup) :
    categoryIncr (ks.map fun c => (c, g c)) a
      = if a ∈ ks
        then ks.map (fun c => (c, if c = a then g c + 1 else g c))
        else (ks.map fun c => (c, g c)) ++ [(a, 1)] := by
  induction ks with
  | nil => simp [categoryIncr]
  | cons k ks ih =>
      have hknd : k ∉ ks := (List.nodup_cons.1 hnd).1
      have hksnd : ks.Nodup := (List.nodup_cons.1 hnd).2
      by_cases hk : k = a
      · subst hk
        rw [List.map_cons]
        rw [show categoryIncr ((k, g k) :: ks.map fun c => (c, g c)) k
          = (k, g k + 1) :: ks.map (fun c => (c, g c)) from by
            simp [categoryIncr]]
        rw [if_pos (List.mem_cons_self k ks), List.map_cons, if_pos rfl]
        congr 1
        apply List.map_congr_left
        intro c hc
        have hck : ¬ c = k := fun h => hknd (h ▸ hc)
        rw [if_neg hck]
      · rw [List.map_cons]
        rw [show categoryIncr ((k, g k) :: ks.map fun c => (c, g c)) a
          = (k, g k) :: categoryIncr (ks.map fun c => (c, g c)) a from by
            simp [categoryIncr, hk]]
        rw [ih hksnd]
        by_cases ha : a ∈ ks
        · rw [if_pos ha, if_pos (List.mem_cons_of_mem k ha), List.map_cons,
            if_neg hk]
        · have hnot : a ∉ k :: ks := by
            intro h
            rcases List.mem_cons.1 h with h | h
            · exact hk h.symm
            · exact ha h
          rw [if_neg ha, if_neg hnot, List.cons_append]

theorem categoryIncr_counts (pref : List String) (a : String) :
    categoryIncr ((firstSeen pref).map fun c => (c, pref.count c)) a
      = (firstSeen (pref ++ [a])).map
          (fun c => (c, (pref ++ [a]).count c)) := by
  rw [firstSeen_append_singleton,
    categoryIncr_map _ _ _ (nodup_firstSeen pref)]
  by_cases ha : a ∈ firstSeen pref
  · rw [if_pos ha, if_pos ha]
    apply List.map_congr_left
    intro c hc
    rw [List.count_append, List.count_singleton']
    by_cases hca : c = a
    · subst hca
      rw [if_pos rfl, if_pos rfl]
    · rw [if_neg hca, if_neg (fun h => hca h.symm), Nat.add_zero]
  · rw [if_neg ha, if_neg ha, List.map_append]
    congr 1
    · apply List.map_congr_left
      intro c hc
      have hca : ¬ a = c := fun h => ha (h ▸ hc)
      rw [List.count_append, List.count_singleton', if_neg hca,
        Nat.add_zero]
    · have hap : a ∉ pref := fun h => ha ((mem_firstSeen pref a).2 h)
      rw [List.map_singleton, List.count_append, List.count_singleton',
        if_pos rfl, List.count_eq_zero.2 hap]

theorem foldl_categoryIncr_spec (cats : List String) : ∀ pref : List String,
    cats.foldl categoryIncr ((firstSeen pref).map fun c => (c, pref.count c))
      = (firstSeen (pref ++ cats)).map
          (fun c => (c, (pref ++ cats).count c)) := by
  induction cats with
  | nil =>
      intro pref
      simp
  | cons a cs ih =>
      intro pref
      rw [List.foldl_cons, categoryIncr_counts]
      have h := ih (pref ++ [a])
      rw [h, List.append_assoc, List.singleton_append]

theorem catCounts_spec (cats : List String) :
    cats.foldl categoryIncr []
      = (firstSeen cats).map (fun c => (c, cats.count c)) := by
  have h := foldl_categoryIncr_spec cats []
  simpa [firstSeen] using h

theorem insight_foldl_spec (db : Db) (fs : List Feature) :
    ∀ st : List FeatureInsight × ℤ × List (String × ℕ),
    fs.foldl (insightStep db) st
      = (st.1 ++ fs.map (featureInsight db),
         st.2.1 + (fs.map (fun f => f.complexity)).sum,
         fs.foldl (fun acc f => categoryIncr acc f.category) st.2.2) := by
  induction fs with
  | nil =>
      intro st
      simp
  | cons f fs ih =>
      intro st
      rw [List.foldl_cons, ih]
      simp [insightStep, add_assoc]

theorem pickMax_foldl_spec (xs : List (String × ℕ)) :
    ∀ best : String × ℕ,
    (xs.foldl (fun b y => if b.2 < y.2 then y else b) best = best ∧
      ∀ p ∈ xs, p.2 ≤ best.2) ∨
    (∃ l1 m l2, xs = l1 ++ m :: l2 ∧
      xs.foldl (fun b y => if b.2 < y.2 then y else b) best = m ∧
      best.2 < m.2 ∧ (∀ p ∈ l1, p.2 < m.2) ∧ (∀ p ∈ l2, p.2 ≤ m.2)) := by
  induction xs with
  | nil =>
      intro best
      exact Or.inl ⟨rfl, by simp⟩
  | cons x xs ih =>
      intro best
      rw [List.foldl_cons]
      by_cases hx : best.2 < x.2
      · rw [if_pos hx]
        rcases ih x with ⟨heq, hall⟩ | ⟨l1, m, l2, hxs, heq, hlt, h1, h2⟩
        · exact Or.inr ⟨[], x, xs, by simp, heq, hx, by simp, hall⟩
        · refine Or.inr ⟨x :: l1, m, l2, by rw [hxs, List.cons_append], heq,
            lt_trans hx hlt, ?_, h2⟩
          intro p hp
          rcases List.mem_cons.1 hp with rfl | hp
          · exact hlt
          · exact h1 p hp
      · rw [if_neg hx]
        rcases ih best with ⟨heq, hall⟩ | ⟨l1, m, l2, hxs, heq, hlt, h1, h2⟩
        · refine Or.inl ⟨heq, ?_⟩
          intro p hp
          rcases List.mem_cons.1 hp with rfl | hp
          · exact not_lt.1 hx
          · exact hall p hp
        · refine Or.inr ⟨x :: l1, m, l2, by rw [hxs, List.cons_append], heq,
            hlt, ?_, h2⟩
          intro p hp
          rcases List.mem_cons.1 hp with rfl | hp
          · exact lt_of_le_of_lt (not_lt.1 hx) hlt
          · exact h1 p hp

theorem pickMaxBySnd_spec (l : List (String × ℕ)) (m : String × ℕ)
    (h : pickMaxBySnd l = some m) :
    ∃ l1 l2, l = l1 ++ m :: l2 ∧ (∀ p ∈ l1, p.2 < m.2) ∧
      ∀ p ∈ l2, p.2 ≤ m.2 := by
  cases l with
  | nil => cases h
  | cons x xs =>
      simp only [pickMaxBySnd, Option.some.injEq] at h
      rcases pickMax_foldl_spec xs x with ⟨heq, hall⟩ |
        ⟨l1, mm, l2, hxs, heq, hlt, h1, h2⟩
      · rw [heq] at h
        subst h
        exact ⟨[], xs, rfl, by simp, hall⟩
      · rw [heq] at h
        subst h
        refine ⟨x :: l1, l2, by rw [hxs, List.cons_append], ?_, h2⟩
        intro p hp
        rcases List.mem_cons.1 hp with rfl | hp
        · exact hlt
        · exact h1 p hp

theorem pickMaxBySnd_eq_none (l : List (String × ℕ)) :
    pickMaxBySnd l = none ↔ l = [] := by
  cases l with
  | nil => simp [pickMaxBySnd]
  | cons x xs => simp [pickMaxBySnd]

/-- The category column in feature-iteration order. -/
def categoriesOf (db : Db) : List String :=
  db.features.map (fun f => f.category)

/-- C9: in the `GET /insights/features` summary, `most_popular_category`
is `None` exactly when no features exist; otherwise it is a category of
maximal feature count, the first-encountered one on ties; and
`avg_complexity` is the mean complexity over all features (`0` with no
features). -/
theorem feature_insights_summary (db : Db) :
    ((get_feature_insights db).most_popular_category = none ↔
      db.features = []) ∧
    (∀ c, (get_feature_insights db).most_popular_category = some c →
      c ∈ categoriesOf db ∧
      (∀ c2, (categoriesOf db).count c2 ≤ (categoriesOf db).count c) ∧
      (∀ c2, (categoriesOf db).count c2 = (categoriesOf db).count c →
        (categoriesOf db).indexOf c ≤ (categoriesOf db).indexOf c2)) ∧
    (get_feature_insights db).avg_complexity
      = (if db.features = [] then 0 else
          ((db.features.map (fun f => f.complexity)).sum : ℚ)
            / (db.features.length : ℚ)) := by
  have hfold := insight_foldl_spec db db.features ([], 0, [])
  have hcc : db.features.foldl (fun acc f => categoryIncr acc f.category) []
      = (firstSeen (categoriesOf db)).map
          (fun c => (c, (categoriesOf db).count c)) := by
    calc db.features.foldl (fun acc f => categoryIncr acc f.category) []
        = (db.features.map (fun f => f.category)).foldl categoryIncr [] :=
          (List.foldl_map (fun f : Feature => f.category) categoryIncr
            db.features []).symm
      _ = (firstSeen (categoriesOf db)).map
            (fun c => (c, (categoriesOf db).count c)) :=
          catCounts_spec (categoriesOf db)
  have hmp : (get_feature_insights db).most_popular_category
      = (pickMaxBySnd ((firstSeen (categoriesOf db)).map
          (fun c => (c, (categoriesOf db).count c)))).map Prod.fst := by
    simp only [get_feature_insights, hfold]
    rw [hcc]
  refine ⟨?_, ?_, ?_⟩
  · rw [hmp]
    constructor
    · intro h
      have hnone := Option.map_eq_none'.1 h
      have hmap := (pickMaxBySnd_eq_none _).1 hnone
      have hfs : firstSeen (categoriesOf db) = [] :=
        List.map_eq_nil_iff.1 hmap
      have hcats : categoriesOf db = [] := (firstSeen_eq_nil _).1 hfs
      exact List.map_eq_nil_iff.1 hcats
    · intro h
      have hcats : categoriesOf db = [] := by
        rw [categoriesOf, h]
        rfl
      rw [hcats]
      rfl
  · intro c hc
    rw [hmp] at hc
    rcases Option.map_eq_some'.1 hc with ⟨m, hpick, hfst⟩
    rcases pickMaxBySnd_spec _ m hpick with ⟨l1, l2, hdec, h1, h2⟩
    have hmmem : m ∈ (firstSeen (categoriesOf db)).map
        (fun c => (c, (categoriesOf db).count c)) := by
      rw [hdec]
      exact List.mem_append_right _ (List.mem_cons_self _ _)
    rcases List.mem_map.1 hmmem with ⟨c', hc', hmc⟩
    have hc'c : c' = c := by
      rw [← hfst, ← hmc]
    subst hc'c
    have hm2 : m.2 = (categoriesOf db).count c' := by
      rw [← hmc]
    have hmemcats : c' ∈ categoriesOf db := (mem_firstSeen _ c').1 hc'
    have hple : ∀ p ∈ (firstSeen (categoriesOf db)).map
        (fun c => (c, (categoriesOf db).count c)), p.2 ≤ m.2 := by
      intro p hp
      rw [hdec] at hp
      rcases List.mem_append.1 hp with hp | hp
      · exact le_of_lt (h1 p hp)
      · rcases List.mem_cons.1 hp with rfl | hp
        · exact le_rfl
        · exact h2 p hp
    refine ⟨hmemcats, ?_, ?_⟩
    · intro c2
      by_cases h2m : c2 ∈ categoriesOf db
      · have hmem2 : (c2, (categoriesOf db).count c2)
            ∈ (firstSeen (categoriesOf db)).map
              (fun c => (c, (categoriesOf db).count c)) :=
          List.mem_map_of_mem _ ((mem_firstSeen _ c2).2 h2m)
        have := hple _ hmem2
        rw [hm2] at this
        exact this
      · rw [List.count_eq_zero.2 h2m]
        exact Nat.zero_le _
    · intro c2 hcnt
      by_cases hceq : c2 = c'
      · rw [hceq]
      · have h2mem : c2 ∈ categoriesOf db := by
          by_contra h2m
          rw [List.count_eq_zero.2 h2m] at hcnt
          have hpos := List.count_pos_iff.2 hmemcats
          omega
        have hpair : ((firstSeen (categoriesOf db)).map
            (fun c => (c, (categoriesOf db).count c))).Pairwise
            (fun p q => (categoriesOf db).indexOf p.1
              < (categoriesOf db).indexOf q.1) :=
          List.pairwise_map.2 (firstSeen_pairwise_indexOf (categoriesOf db))
        have h2in : (c2, (categoriesOf db).count c2)
            ∈ (firstSeen (categoriesOf db)).map
              (fun c => (c, (categoriesOf db).count c)) :=
          List.mem_map_of_mem _ ((mem_firstSeen _ c2).2 h2mem)
        rw [hdec] at h2in hpair
        rcases List.mem_append.1 h2in with hp | hp
        · have hlt := h1 _ hp
          rw [hm2] at hlt
          simp only [hcnt] at hlt
          omega
        · rcases List.mem_cons.1 hp with heqm | hp
          · have : c2 = m.1 := by
              rw [← heqm]
            rw [hfst] at this
            exact absurd this hceq
          · have hps := List.pairwise_append.1 hpair
            have hrel := List.rel_of_pairwise_cons hps.2.1 hp
            rw [hfst] at hrel
            exact le_of_lt hrel
  · simp only [get_feature_insights, hfold]
    by_cases h : db.features = []
    · simp [h]
    · have hE : db.features.isEmpty = false := by
        cases hcase : db.features with
        | nil => exact absurd hcase h
        | cons a as => rfl
      simp only [hE, Bool.false_eq_true, if_false, if_neg h, zero_add]
      rw [Int.cast_list_sum, List.map_map]
      rfl

/-- Test fixture for C9: three features with categories
`["data", "ops", "data"]` and complexities `2, 3, 1`. -/
def insightsDemoDb : Db :=
  { users := [],
    features :=
      [{ id := 1, name := "exp", category := "data", complexity := 2,
         popularity := 0 },
       { id := 2, name := "rep", category := "ops", complexity := 3,
         popularity := 0 },
       { id := 3, name := "imp", category := "data", complexity := 1,
         popularity := 0 }],
    interactions := [] }

/-- Witness for C9: on the fixture, the most popular category is
`"data"` (2 features against 1) and the mean complexity is `2`. -/
theorem feature_insights_summary_witness :
    ((get_feature_insights insightsDemoDb).most_popular_category = none ↔
      insightsDemoDb.features = []) ∧
    (get_feature_insights insightsDemoDb).most_popular_category
      = some "data" ∧
    (get_feature_insights insightsDemoDb).avg_complexity = 2 :=
  ⟨(feature_insights_summary insightsDemoDb).1,
   by norm_num [get_feature_insights, insightsDemoDb, insightStep,
     featureInsight, categoryIncr, pickMaxBySnd],
   by norm_num [get_feature_insights, insightsDemoDb, insightStep,
     featureInsight, categoryIncr, pickMaxBySnd]⟩

/-! ### The two discovered-feature read paths (C10) -/

/-- C10: `GET /users/{id}/discovered_features` returns exactly the
features having an interaction of the user with
`discovery_status >= 0.5`, while the `discovered_features` count of
`GET /insights/user/{id}` counts interactions with
`discovery_status > 0` — the two read paths use different thresholds. -/
theorem discovered_reads_use_different_thresholds (db : Db) (uid : ℕ)
    (user : User) (h : findUser db uid = some user) :
    (∃ fs, get_discovered_features db uid = Except.ok fs ∧
      (∀ f, f ∈ fs ↔ (f ∈ db.features ∧ ∃ i ∈ db.interactions,
        i.user_id = uid ∧ i.feature_id = f.id ∧
          (1:ℚ)/2 ≤ i.discovery_status))) ∧
    userInsightsDiscoveredCount db uid
      = db.interactions.countP
          (fun i => decide (i.user_id = uid ∧ (0:ℚ) < i.discovery_status)) := by
  constructor
  · simp only [get_discovered_features, h]
    set ints := db.interactions.filter
      (fun i => i.user_id == uid && decide ((1:ℚ)/2 ≤ i.discovery_status))
      with hints
    set ids := ints.map (fun i => i.feature_id) with hids
    by_cases hE : ids.isEmpty = true
    · refine ⟨[], by rw [if_pos hE], ?_⟩
      intro f
      simp only [List.not_mem_nil, false_iff, not_and]
      intro hf hex
      rcases hex with ⟨i, hi, hiu, hif, hid⟩
      have hmemf : i ∈ ints := by
        rw [hints]
        refine List.mem_filter.2 ⟨hi, ?_⟩
        simp only [Bool.and_eq_true, beq_iff_eq, decide_eq_true_eq]
        exact ⟨hiu, hid⟩
      have hmemid : i.feature_id ∈ ids := by
        rw [hids]
        exact List.mem_map_of_mem _ hmemf
      rw [List.isEmpty_iff.1 hE] at hmemid
      exact absurd hmemid (List.not_mem_nil _)
    · refine ⟨_, by rw [if_neg hE], ?_⟩
      intro f
      rw [List.mem_filter]
      constructor
      · rintro ⟨hfmem, hc⟩
        refine ⟨hfmem, ?_⟩
        have hmemid : f.id ∈ ids := List.elem_iff.1 hc
        rw [hids] at hmemid
        rcases List.mem_map.1 hmemid with ⟨i, hi, hfi⟩
        rw [hints] at hi
        have hfl := List.mem_filter.1 hi
        have hpred := hfl.2
        simp only [Bool.and_eq_true, beq_iff_eq, decide_eq_true_eq] at hpred
        exact ⟨i, hfl.1, hpred.1, hfi, hpred.2⟩
      · rintro ⟨hfmem, i, hi, hiu, hif, hid⟩
        refine ⟨hfmem, List.elem_iff.2 ?_⟩
        rw [hids, ← hif]
        refine List.mem_map_of_mem _ ?_
        rw [hints]
        refine List.mem_filter.2 ⟨hi, ?_⟩
        simp only [Bool.and_eq_true, beq_iff_eq, decide_eq_true_eq]
        exact ⟨hiu, hid⟩
  · rw [userInsightsDiscoveredCount, List.filter_filter,
      List.countP_eq_length_filter]
    congr 1
    apply List.filter_congr
    intro i _
    by_cases h1 : i.user_id = uid <;>
      by_cases h2 : (0:ℚ) < i.discovery_status <;> simp [h1, h2]

/-- Test fixture: one user, one feature, one interaction whose
`discovery_status` is `0.3` — above zero but below `0.5`. -/
def thresholdDemoDb : Db :=
  { users := [{ id := 1, product_role := "user",
                experience_level := "beginner",
                feature_discovery_score := 0 }],
    features := [{ id := 10, name := "export", category := "data",
                   complexity := 2, popularity := 0 }],
    interactions := [{ id := 1, user_id := 1, feature_id := 10,
                       discovery_status := 3/10, tutorial_views := 1,
                       automation_uses := 0, rating := none,
                       feedback := none }] }

/-- Witness for C10: with one interaction at `discovery_status = 0.3`,
the listing endpoint returns no features while the insight counts one
discovered feature. -/
theorem discovered_reads_use_different_thresholds_witness :
    ((∃ fs, get_discovered_features thresholdDemoDb 1 = Except.ok fs ∧
      (∀ f, f ∈ fs ↔ (f ∈ thresholdDemoDb.features ∧
        ∃ i ∈ thresholdDemoDb.interactions,
          i.user_id = 1 ∧ i.feature_id = f.id ∧
            (1:ℚ)/2 ≤ i.discovery_status))) ∧
      userInsightsDiscoveredCount thresholdDemoDb 1
        = thresholdDemoDb.interactions.countP
            (fun i => decide (i.user_id = 1 ∧ (0:ℚ) < i.discovery_status))) ∧
    (get_discovered_features thresholdDemoDb 1 = Except.ok [] ∧
      userInsightsDiscoveredCount thresholdDemoDb 1 = 1) :=
  ⟨discovered_reads_use_different_thresholds thresholdDemoDb 1 _ rfl,
   by norm_num [get_discovered_features, userInsightsDiscoveredCount,
     thresholdDemoDb, findUser, List.find?, List.filter]⟩

/-! ## Context extractor (`app/services/scraper.py`)

The BeautifulSoup document is modelled as a tree of element nodes (tag,
attributes, children) and text nodes; a document is the top-level node
list.  Parsing an HTML string into such a tree is the external library
call, modelled as an `Except`-valued function handed to `extract`; an
`Except.error` stands for an exception escaping the `try` block.
Python stdlib string/URL helpers used by the extractor are modelled
below next to their call sites (`urlparse` without query/fragment
splitting, `str.strip`, `str.title`, `str.replace`, substring tests).
-/

inductive Node where
  | elem (tag : String) (attrs : List (String × String))
      (children : List Node)
  | text (s : String)

def Node.tagName : Node → Option String
  | .elem t _ _ => some t
  | .text _ => none

def Node.attrs : Node → List (String × String)
  | .elem _ a _ => a
  | .text _ => []

def Node.children : Node → List Node
  | .elem _ _ c => c
  | .text _ => []

/-- `tag.get(name)`: the attribute value, when present. -/
def Node.getAttr (n : Node) (name : String) : Option String :=
  (n.attrs.find? (fun p => p.1 == name)).map Prod.snd

/-- BeautifulSoup's multi-valued `class` attribute: the whitespace-split
class list. -/
def Node.classes (n : Node) : List String :=
  (((n.getAttr "class").getD "").splitOn " ").filter (fun c => c != "")

mutual
/-- The `.text` property: concatenation of all descendant strings. -/
def Node.textContent : Node → String
  | .text s => s
  | .elem _ _ cs => Node.textListContent cs

def Node.textListContent : List Node → String
  | [] => ""
  | n :: ns => Node.textContent n ++ Node.textListContent ns
end

/-- The `.string` property: descends through single-child tags to a lone
text node, `none` otherwise. -/
def Node.string : Node → Option String
  | .text s => some s
  | .elem _ _ [c] => Node.string c
  | .elem _ _ _ => none

/-- `find_all(pred)`: all matching nodes in document (pre-)order. -/
def findAllRec (p : Node → Bool) : List Node → List Node
  | [] => []
  | Node.text s :: ns =>
      (if p (Node.text s) then [Node.text s] else []) ++ findAllRec p ns
  | Node.elem t a cs :: ns =>
      (if p (Node.elem t a cs) then [Node.elem t a cs] else [])
        ++ findAllRec p cs ++ findAllRec p ns

/-- `find_all` variant that pairs each match with its parent (the
top-level nodes have no parent). -/
def findAllWithParent (p : Node → Bool) :
    Option Node → List Node → List (Node × Option Node)
  | _, [] => []
  | par, Node.text s :: ns =>
      (if p (Node.text s) then [(Node.text s, par)] else [])
        ++ findAllWithParent p par ns
  | par, Node.elem t a cs :: ns =>
      (if p (Node.elem t a cs) then [(Node.elem t a cs, par)] else [])
        ++ findAllWithParent p (some (Node.elem t a cs)) cs
        ++ findAllWithParent p par ns

def isTag (t : String) (n : Node) : Bool :=
  match n with
  | .elem tg _ _ => tg == t
  | .text _ => false

/-- Case-sensitive substring test (`sub in s`). -/
def pyContains (s sub : String) : Bool :=
  decide (sub.toList <:+: s.toList)

/-- Case-insensitive substring test: `re.search` of a literal pattern
compiled with `re.I` against one class string. -/
def containsInsensitive (s sub : String) : Bool :=
  pyContains s.toLower sub.toLower

/-- `str.strip(c)` for one character: drop it from both ends. -/
def stripCharBoth (c : Char) (s : String) : String :=
  String.mk (((s.toList.dropWhile (fun x => x == c)).reverse.dropWhile
    (fun x => x == c)).reverse)

/-- `str.title()`: a letter after a non-letter is uppercased, other
letters lowercased. -/
def pyTitleCase (s : String) : String :=
  String.mk (s.toList.foldl
    (fun (acc : List Char × Bool) ch =>
      if ch.isAlpha then
        (acc.1 ++ [if acc.2 then ch.toLower else ch.toUpper], true)
      else (acc.1 ++ [ch], false))
    ([], false)).1

structure UrlParts where
  netloc : String
  path : String
deriving DecidableEq, Repr

/-- `urllib.parse.urlparse`, reduced to the parts the extractor reads:
the network location after `scheme://` and the remaining path (queries
and fragments are not modelled). -/
def pyUrlparse (url : String) : UrlParts :=
  match url.splitOn "://" with
  | [s] => { netloc := "", path := s }
  | _ :: rest =>
      let after := String.intercalate "://" rest
      let netloc := after.takeWhile (fun c => c != '/')
      { netloc := netloc, path := after.drop netloc.length }
  | [] => { netloc := "", path := url }

structure FormField where
  type : String
  id : String
  name : String
  placeholder : String
  label : String
  value : String
deriving DecidableEq, Repr

structure NavItem where
  text : String
  href : String
  active : Bool
  has_icon : Bool
deriving DecidableEq, Repr

structure ButtonInfo where
  text : String
  id : String
  class_ : String
  disabled : Bool
  type : String
deriving DecidableEq, Repr

/-- The dictionary `ContextExtractor.extract` returns. -/
structure PageContext where
  title : String
  url : String
  current_section : String
  form_fields : List FormField
  nav_items : List NavItem
  headings : List String
  buttons : List ButtonInfo
  potential_features : List String
  error_messages : List String
  metadata : List (String × String)
  user_info : List (String × String)
  domain : String

/-- The fixed keyword list of `ContextExtractor.__init__`. -/
def feature_keywords : List String :=
  ["feature", "tool", "function", "capability", "module",
   "dashboard", "report", "analytics", "automation", "integration",
   "export", "import", "settings", "configuration", "customize",
   "workflow", "template", "notification", "alert", "monitor"]

/-- `_extract_domain`: the netloc of the URL. -/
def extract_domain (url : String) : String :=
  (pyUrlparse url).netloc

/-- The URL fallback of `_extract_title` (lines 111-116): last non-empty
path segment, dehyphenated and title-cased, else `"Unknown Page"`. -/
def titleFromUrl (current_url : String) : String :=
  let path_parts := (stripCharBoth '/' (pyUrlparse current_url).path).splitOn "/"
  match path_parts.getLast? with
  | some last =>
      if last != "" then
        pyTitleCase ((last.replace "-" " ").replace "_" " ")
      else "Unknown Page"
  | none => "Unknown Page"

/-- `soup.title.string` guarded by the title tag existing. -/
def soupTitleString (doc : List Node) : Option String :=
  ((findAllRec (isTag "title") doc).head?).bind Node.string

/-- `soup.find('h1').text` when an `h1` exists. -/
def soupH1Text (doc : List Node) : Option String :=
  ((findAllRec (isTag "h1") doc).head?).map Node.textContent

/-- The `h1`-and-URL part of `_extract_title` (lines 105-116). -/
def extract_title_h1 (doc : List Node) (current_url : String) : String :=
  match soupH1Text doc with
  | some t => if t != "" then t.trim else titleFromUrl current_url
  | none => titleFromUrl current_url

/-- `_extract_title` (lines 99-119): document title when present and
non-empty, else first `h1`, else a URL-derived title. -/
def extract_title (doc : List Node) (current_url : String) : String :=
  match soupTitleString doc with
  | some s => if s != "" then s.trim else extract_title_h1 doc current_url
  | none => extract_title_h1 doc current_url

def isFieldTag (n : Node) : Bool :=
  isTag "input" n || isTag "select" n || isTag "textarea" n

/-- `input` elements of kind hidden/submit/button are skipped
(line 127). -/
def fieldSkipped (n : Node) : Bool :=
  isTag "input" n &&
    (match n.getAttr "type" with
     | some t => t == "hidden" || t == "submit" || t == "button"
     | none => false)

/-- `_find_label_for_input` (lines 144-165): `for`-linked label in the
form, else enclosing label (with the field's own text removed), else the
immediately preceding label sibling, else `""`. -/
def find_label_for_input (form : Node) (parent : Option Node)
    (elders : List Node) (input_tag : Node) : String :=
  let byFor : Option Node :=
    match input_tag.getAttr "id" with
    | some idv =>
        if idv != "" then
          (findAllRec (fun n => isTag "label" n &&
            (match n.getAttr "for" with
             | some f => f == idv
             | none => false)) form.children).head?
        else none
    | none => none
  match byFor with
  | some lab => lab.textContent.trim
  | none =>
      let fromParent : Option String :=
        match parent with
        | some p =>
            if isTag "label" p then
              some ((p.textContent.replace input_tag.textContent "").trim)
            else none
        | none => none
      match fromParent with
      | some lab => lab
      | none =>
          match elders.reverse.find? (isTag "label") with
          | some lab => lab.textContent.trim
          | none => ""

/-- One form field record (lines 130-137). -/
def mkFormField (form : Node) (parent : Option Node) (elders : List Node)
    (input_tag : Node) : FormField :=
  { type := (input_tag.tagName).getD "",
    id := (input_tag.getAttr "id").getD "",
    name := (input_tag.getAttr "name").getD "",
    placeholder := (input_tag.getAttr "placeholder").getD "",
    label := find_label_for_input form parent elders input_tag,
    value := if isTag "input" input_tag then
      (input_tag.getAttr "value").getD ""
      else input_tag.textContent.trim }

/-- Walk of one form's subtree collecting fields, tracking each node's
parent and elder siblings for label resolution. -/
def formFieldsWalk (form parent : Node) :
    List Node → List Node → List FormField
  | _, [] => []
  | elders, c :: cs =>
      (if isFieldTag c && !fieldSkipped c then
        [mkFormField form (some parent) elders c] else [])
      ++ (match c with
          | Node.elem _ _ gcs => formFieldsWalk form c [] gcs
          | Node.text _ => [])
      ++ formFieldsWalk form parent (elders ++ [c]) cs

/-- `_extract_form_fields` (lines 121-142). -/
def extract_form_fields (doc : List Node) : List FormField :=
  ((findAllRec (isTag "form") doc).map
    (fun form => formFieldsWalk form form [] form.children)).flatten

/-- Any of the element's classes matches one of the keywords
case-insensitively. -/
def classMatches (kws : List String) (n : Node) : Bool :=
  n.classes.any (fun cls => kws.any (fun kw => containsInsensitive cls kw))

/-- Containers scanned for navigation: `nav`/`ul`/`div` tags whose class
matches `nav|menu|sidebar` (line 172). -/
def navContainer (n : Node) : Bool :=
  (isTag "nav" n || isTag "ul" n || isTag "div" n) &&
    classMatches ["nav", "menu", "sidebar"] n

/-- `_is_active_link` (lines 191-209). -/
def is_active_link (current_url : String) (link : Node) : Bool :=
  (link.classes.any (fun cls =>
      cls == "active" || cls == "selected" || cls == "current"))
  || (let href := (link.getAttr "href").getD ""
      href != "" && href != "#" && pyContains current_url href)
  || (match link.getAttr "aria-current" with
      | some v => v == "page" || v == "true"
      | none => false)

/-- `_extract_navigation` (lines 167-189). -/
def extract_navigation (doc : List Node) (current_url : String) :
    List NavItem :=
  ((findAllRec navContainer doc).map (fun nav =>
    (findAllRec (isTag "a") nav.children).filterMap (fun link =>
      if link.textContent.trim != "" then
        some { text := link.textContent.trim,
               href := (link.getAttr "href").getD "",
               active := is_active_link current_url link,
               has_icon := !(findAllRec (fun n =>
                 isTag "i" n || isTag "svg" n || isTag "img" n)
                 link.children).isEmpty }
      else none))).flatten

/-- `_extract_headings` (lines 211-222): `h1`-`h4` texts, de-duplicated
in first-seen order. -/
def extract_headings (doc : List Node) : List String :=
  (findAllRec (fun n => isTag "h1" n || isTag "h2" n || isTag "h3" n ||
      isTag "h4" n) doc).foldl
    (fun acc h =>
      let t := h.textContent.trim
      if t != "" && !acc.contains t then acc ++ [t] else acc) []

/-- `_extract_buttons` (lines 224-261). -/
def extract_buttons (doc : List Node) : List ButtonInfo :=
  (findAllRec (fun n => isTag "button" n || isTag "a" n || isTag "input" n)
      doc).filterMap
    (fun b =>
      if isTag "a" b &&
          !(b.classes.any (fun c => pyContains c.toLower "btn")) then none
      else if isTag "input" b &&
          !(match b.getAttr "type" with
            | some t => t == "button" || t == "submit" || t == "reset"
            | none => false) then none
      else
        let text := if isTag "input" b then (b.getAttr "value").getD ""
          else b.textContent.trim
        if text == "" then none
        else some
          { text := text,
            id := (b.getAttr "id").getD "",
            class_ := String.intercalate " " b.classes,
            disabled := b.attrs.any (fun p => p.1 == "disabled")
              || b.classes.contains "disabled",
            type := if isTag "a" b then "link"
              else (b.getAttr "type").getD "" })

/-- `_extract_potential_features` (lines 263-302). -/
def extract_potential_features (doc : List Node) : List String :=
  let keywordIn := fun (cls : String) =>
    feature_keywords.any (fun kw => pyContains cls.toLower kw)
  let collected := (findAllWithParent (fun n =>
      isTag "p" n || isTag "div" n || isTag "span" n || isTag "li" n ||
      isTag "a" n || isTag "h3" n || isTag "h4" n) none doc).foldl
    (fun acc pair =>
      let text := pair.1.textContent.trim
      if text == "" || text.length > 100 then acc
      else if feature_keywords.any
          (fun kw => pyContains text.toLower kw) then acc ++ [text]
      else if pair.1.classes.any keywordIn then acc ++ [text]
      else match pair.2 with
        | some par => if par.classes.any keywordIn then acc ++ [text]
            else acc
        | none => acc) []
  collected.foldl
    (fun acc t => if acc.contains t then acc else acc ++ [t]) []

def error_classes : List String :=
  ["error", "alert", "warning", "danger", "notification"]

/-- The `if text and text not in error_messages` accumulation. -/
def addUniqueText (acc : List String) (t : String) : List String :=
  if t != "" && !acc.contains t then acc ++ [t] else acc

/-- `_extract_error_messages` (lines 304-329). -/
def extract_error_messages (doc : List Node) : List String :=
  let fromClasses := error_classes.foldl (fun acc ec =>
    (findAllRec (fun n => n.classes.any
        (fun cls => containsInsensitive cls ec)) doc).foldl
      (fun acc e => addUniqueText acc e.textContent.trim) acc) []
  (findAllRec (fun n =>
      match n.getAttr "aria-invalid" with
      | some v => v == "true"
      | none => false) doc).foldl
    (fun acc el =>
      let e1 := (el.getAttr "aria-errormessage").getD ""
      let errId := if e1 != "" then e1
        else (el.getAttr "aria-describedby").getD ""
      if errId != "" then
        match (findAllRec (fun n =>
            match n.getAttr "id" with
            | some v => v == errId
            | none => false) doc).head? with
        | some ee => addUniqueText acc ee.textContent.trim
        | none => acc
      else acc) fromClasses

/-- The active-item and URL fallbacks of `_determine_section`
(lines 341-352). -/
def sectionFromActive (doc : List Node) (current_url : String) : String :=
  match (findAllRec (fun n => (isTag "a" n || isTag "li" n) &&
      n.classes.any (fun cls => containsInsensitive cls "active" ||
        containsInsensitive cls "selected" ||
        containsInsensitive cls "current")) doc).head? with
  | some nav => nav.textContent.trim
  | none =>
      let path_parts :=
        (stripCharBoth '/' (pyUrlparse current_url).path).splitOn "/"
      match path_parts.getLast? with
      | some last => pyTitleCase ((last.replace "-" " ").replace "_" " ")
      | none => "Unknown"

/-- `_determine_section` (lines 331-355): last breadcrumb link, else
first active item, else the humanized last URL path segment. -/
def determine_section (doc : List Node) (current_url : String) : String :=
  match (findAllRec (fun n => n.classes.any
      (fun cls => containsInsensitive cls "breadcrumb")) doc).head? with
  | some bc =>
      let crumbs := (findAllRec (isTag "a") bc.children).map
        (fun a => a.textContent.trim)
      match crumbs.getLast? with
      | some last => last
      | none => sectionFromActive doc current_url
  | none => sectionFromActive doc current_url

/-- Python dict write: overwrite in place or append. -/
def setKeyLastWins (m : List (String × String)) (k v : String) :
    List (String × String) :=
  if m.any (fun p => p.1 == k) then
    m.map (fun p => if p.1 == k then (k, v) else p)
  else m ++ [(k, v)]

/-- `_extract_metadata` (lines 357-370). -/
def extract_metadata (doc : List Node) : List (String × String) :=
  (findAllRec (isTag "meta") doc).foldl (fun acc meta =>
    let n1 := (meta.getAttr "name").getD ""
    let nm := if n1 != "" then n1 else (meta.getAttr "property").getD ""
    let content := (meta.getAttr "content").getD ""
    if nm != "" && content != "" then setKeyLastWins acc nm content
    else acc) []

/-- `_extract_user_info` (lines 372-389). -/
def extract_user_info (doc : List Node) : List (String × String) :=
  (findAllRec (fun n => n.classes.any
      (fun cls => containsInsensitive cls "user" ||
        containsInsensitive cls "profile" ||
        containsInsensitive cls "account")) doc).foldl
    (fun acc el =>
      let text := el.textContent.trim
      if text != "" then
        if pyContains text "@" then setKeyLastWins acc "email" text
        else setKeyLastWins acc "name" text
      else acc) []

/-- `_create_minimal_context` (lines 399-414). -/
def create_minimal_context (current_url error_message : String) :
    PageContext :=
  { title := "Error extracting context",
    url := current_url,
    current_section := "Unknown",
    form_fields := [],
    nav_items := [],
    headings := [],
    buttons := [],
    potential_features := [],
    error_messages := ["Context extraction failed: " ++ error_message],
    metadata := [],
    user_info := [],
    domain := extract_domain current_url }

/-- `ContextExtractor.extract` (lines 32-97): empty markup or a parser
exception yields the minimal context; otherwise each sub-extraction
runs over the parsed tree. -/
def extract (parse : String → Except String (List Node))
    (html_content current_url : String) : PageContext :=
  if html_content == "" then
    create_minimal_context current_url "Empty HTML content provided"
  else
    match parse html_content with
    | Except.error e => create_minimal_context current_url e
    | Except.ok doc =>
        { title := extract_title doc current_url,
          url := current_url,
          current_section := determine_section doc current_url,
          form_fields := extract_form_fields doc,
          nav_items := extract_navigation doc current_url,
          headings := extract_headings doc,
          buttons := extract_buttons doc,
          potential_features := extract_potential_features doc,
          error_messages := extract_error_messages doc,
          metadata := extract_metadata doc,
          user_info := extract_user_info doc,
          domain := extract_domain current_url }

/-! ### Extraction failure path (C1) -/

/-- C1: on empty markup or any internal parsing error, `extract` returns
the minimal context — fixed title and section, every collection empty,
exactly one diagnostic entry in `error_messages`, and the domain parsed
from the URL. -/
theorem extract_never_fails_minimal_context
    (parse : String → Except String (List Node))
    (html current_url : String)
    (h : html = "" ∨ ∃ e, parse html = Except.error e) :
    (extract parse html current_url).title = "Error extracting context" ∧
    (extract parse html current_url).current_section = "Unknown" ∧
    (extract parse html current_url).url = current_url ∧
    (extract parse html current_url).form_fields = [] ∧
    (extract parse html current_url).nav_items = [] ∧
    (extract parse html current_url).headings = [] ∧
    (extract parse html current_url).buttons = [] ∧
    (extract parse html current_url).potential_features = [] ∧
    (extract parse html current_url).metadata = [] ∧
    (extract parse html current_url).user_info = [] ∧
    (extract parse html current_url).error_messages.length = 1 ∧
    (∃ msg, (extract parse html current_url).error_messages
      = ["Context extraction failed: " ++ msg]) ∧
    (extract parse html current_url).domain = extract_domain current_url := by
  have hmin : ∃ m, extract parse html current_url
      = create_minimal_context current_url m := by
    by_cases hempty : html = ""
    · refine ⟨"Empty HTML content provided", ?_⟩
      subst hempty
      simp [extract]
    · rcases h with h | ⟨e, he⟩
      · exact absurd h hempty
      · refine ⟨e, ?_⟩
        have hb : (html == "") = false := by
          rw [beq_eq_false_iff_ne]
          exact hempty
        simp only [extract, hb, Bool.false_eq_true, if_false, he]
  rcases hmin with ⟨m, hm⟩
  rw [hm]
  exact ⟨rfl, rfl, rfl, rfl, rfl, rfl, rfl, rfl, rfl, rfl, rfl,
    ⟨m, rfl⟩, rfl⟩

/-- Witness for C1: a parser that throws on the given markup. -/
theorem extract_never_fails_minimal_context_witness :
    (extract (fun _ => Except.error "boom") "<div>"
      "https://example.com/app").title = "Error extracting context" ∧
    (extract (fun _ => Except.error "boom") "<div>"
      "https://example.com/app").current_section = "Unknown" ∧
    (extract (fun _ => Except.error "boom") "<div>"
      "https://example.com/app").url = "https://example.com/app" ∧
    (extract (fun _ => Except.error "boom") "<div>"
      "https://example.com/app").form_fields = [] ∧
    (extract (fun _ => Except.error "boom") "<div>"
      "https://example.com/app").nav_items = [] ∧
    (extract (fun _ => Except.error "boom") "<div>"
      "https://example.com/app").headings = [] ∧
    (extract (fun _ => Except.error "boom") "<div>"
      "https://example.com/app").buttons = [] ∧
    (extract (fun _ => Except.error "boom") "<div>"
      "https://example.com/app").potential_features = [] ∧
    (extract (fun _ => Except.error "boom") "<div>"
      "https://example.com/app").metadata = [] ∧
    (extract (fun _ => Except.error "boom") "<div>"
      "https://example.com/app").user_info = [] ∧
    (extract (fun _ => Except.error "boom") "<div>"
      "https://example.com/app").error_messages.length = 1 ∧
    (∃ msg, (extract (fun _ => Except.error "boom") "<div>"
      "https://example.com/app").error_messages
      = ["Context extraction failed: " ++ msg]) ∧
    (extract (fun _ => Except.error "boom") "<div>"
      "https://example.com/app").domain
      = extract_domain "https://example.com/app" :=
  extract_never_fails_minimal_context (fun _ => Except.error "boom")
    "<div>" "https://example.com/app" (Or.inr ⟨"boom", rfl⟩)

/-! ### Title extraction priority (C7) -/

/-- C7: the extracted title is the stripped document title when present
and non-empty; otherwise the stripped first `h1` text when non-empty;
otherwise the URL-derived title, which is the last non-empty path
segment with hyphens and underscores replaced by spaces and title-cased,
or `"Unknown Page"` when no such segment exists. -/
theorem extract_title_priority (doc : List Node) (current_url : String) :
    (∀ s, soupTitleString doc = some s → s ≠ "" →
      extract_title doc current_url = s.trim) ∧
    ((soupTitleString doc = none ∨ soupTitleString doc = some "") →
      (∀ t, soupH1Text doc = some t → t ≠ "" →
        extract_title doc current_url = t.trim) ∧
      ((soupH1Text doc = none ∨ soupH1Text doc = some "") →
        extract_title doc current_url = titleFromUrl current_url)) ∧
    (∀ seg, ((stripCharBoth '/' (pyUrlparse current_url).path).splitOn
        "/").getLast? = some seg →
      (seg ≠ "" → titleFromUrl current_url
        = pyTitleCase ((seg.replace "-" " ").replace "_" " ")) ∧
      (seg = "" → titleFromUrl current_url = "Unknown Page")) := by
  refine ⟨?_, ?_, ?_⟩
  · intro s hs hne
    simp only [extract_title, hs]
    rw [if_pos (bne_iff_ne.2 hne)]
  · intro hcase
    have hred : extract_title doc current_url
        = extract_title_h1 doc current_url := by
      rcases hcase with h | h
      · simp only [extract_title, h]
      · simp only [extract_title, h]
        rw [if_neg (by decide)]
    rw [hred]
    constructor
    · intro t ht hne
      simp only [extract_title_h1, ht]
      rw [if_pos (bne_iff_ne.2 hne)]
    · intro hcase2
      rcases hcase2 with h | h
      · simp only [extract_title_h1, h]
      · simp only [extract_title_h1, h]
        rw [if_neg (by decide)]
  · intro seg hseg
    constructor
    · intro hne
      simp only [titleFromUrl, hseg]
      rw [if_pos (bne_iff_ne.2 hne)]
    · intro heq
      simp only [titleFromUrl, hseg, heq]
      rw [if_neg (by decide)]

/-- Test fixture for C7: markup with `<title>  Hello World </title>` and
an unrelated `h1`. -/
def titleDemoDoc : List Node :=
  [Node.elem "html" []
    [Node.elem "head" []
      [Node.elem "title" [] [Node.text "  Hello World "]],
     Node.elem "body" [] [Node.elem "h1" [] [Node.text "Other"]]]]

/-- Witness for C7: the title element wins and is stripped of
surrounding whitespace. -/
theorem extract_title_priority_witness :
    soupTitleString titleDemoDoc = some "  Hello World " ∧
    extract_title titleDemoDoc "https://example.com/projects/task-board"
      = "  Hello World ".trim :=
  have h : soupTitleString titleDemoDoc = some "  Hello World " := by
    simp [soupTitleString, titleDemoDoc, findAllRec, isTag, Node.string]
  ⟨h,
   (extract_title_priority titleDemoDoc
      "https://example.com/projects/task-board").1 "  Hello World " h
     (by decide)⟩

end FeatureDiscovery
